import Mathlib

/-!
Verification development for the grip_genius climbing-video analysis code.

Conventions of the shallow embedding:
- JavaScript numbers are modelled by rational numbers (`ℚ`); all arithmetic in
  the verified fragments is exact in the source (no rounding-sensitive code is
  relied on by the claims).
- Every comparison `Math.sqrt(dSq) < t` from the source is embedded as
  `0 < t ∧ dSq < t^2`, which is equivalent because the square root is
  nonnegative and strictly monotone on nonnegative inputs.
- JavaScript `Map` objects (which iterate in insertion order) are embedded as
  association lists kept in insertion order.
- Fallible or external operations (the pose/detection services) are modelled
  as explicit inputs or `Except`-valued parameters.
-/

namespace GripGenius

/-- Squared Euclidean distance between `(x1, y1)` and `(x2, y2)`.
The source (utils/geometry.ts `distance`, and the inlined copies in
hold_detector.ts and climb_report.ts) computes
`Math.sqrt((x1-x2)^2 + (y1-y2)^2)`; we work with the square throughout. -/
def distSq (x1 y1 x2 y2 : ℚ) : ℚ :=
  (x1 - x2) ^ 2 + (y1 - y2) ^ 2

/-- Embedding of `Math.sqrt dSq < t` for a squared distance `dSq ≥ 0`:
equivalent to `0 < t ∧ dSq < t^2` (√ is nonnegative and strictly monotone). -/
def sqrtLt (dSq t : ℚ) : Bool :=
  decide (0 < t) && decide (dSq < t ^ 2)

-- ============ types/index.ts ============

/-- The four tracked limbs (types/index.ts `Limb`). -/
inductive Limb
  | leftHand
  | rightHand
  | leftFoot
  | rightFoot
deriving DecidableEq

/-- `limb.includes('Hand')` from the source. -/
def Limb.isHand : Limb → Bool
  | .leftHand => true
  | .rightHand => true
  | .leftFoot => false
  | .rightFoot => false

/-- Action kinds (types/index.ts `BetaAction.type`). -/
inductive ActionType
  | Start
  | Grab
  | Step
  | HeelHook
  | Crossover
  | Match
  | Finish
deriving DecidableEq

/-- One emitted climbing action (types/index.ts `BetaAction`). -/
structure BetaAction where
  id : String
  timestamp : ℚ
  type : ActionType
  limb : Limb
  holdId : String
  description : String
deriving DecidableEq

instance : Inhabited BetaAction :=
  ⟨⟨"", 0, ActionType.Start, Limb.leftHand, "", ""⟩⟩

/-- Kinds of alignment operations (types/index.ts `DiffResult.operations[].type`);
`match` is a Lean keyword, hence the constructor name `matchOp`. -/
inductive DiffOpType
  | matchOp
  | insert
  | delete
  | substitute
deriving DecidableEq

/-- One alignment operation (types/index.ts `DiffResult.operations` entries). -/
structure DiffOp where
  type : DiffOpType
  itemA : Option BetaAction
  itemB : Option BetaAction
  description : String
deriving DecidableEq

/-- Diff outcome (types/index.ts `DiffResult`). -/
structure DiffResult where
  cost : ℚ
  operations : List DiffOp
deriving DecidableEq

-- ============ diff_analyzer.ts (DiffAnalyzer) ============

/-- Substitution cost (diff_analyzer.ts `DiffAnalyzer.getCost`). -/
def getCost (a b : BetaAction) : ℚ :=
  if a.limb ≠ b.limb then 1
  else if a.holdId = b.holdId ∧ a.type = b.type then 0
  else if a.holdId ≠ b.holdId ∧ a.type = b.type then 1 / 2
  else 1

/-- Row `i + 1` of the DP table of `DiffAnalyzer.compare`, given row `i` as
`prev`: entry `j = 0` is the base column `dp[i+1][0] = i+1`, and entry `j + 1`
is `min(dp[i][j+1]+1, dp[i+1][j]+1, dp[i][j]+cost)` exactly as in the source
(`Math.min` of three arguments is the same value under either nesting).
The table is organized row by row so that the definition is structurally
recursive and computes inside the kernel; `dpVal_succ_succ` below restates the
source's recurrence verbatim. -/
def dpRow (A B : List BetaAction) (i : ℕ) (prev : ℕ → ℚ) : ℕ → ℚ
  | 0 => (i : ℚ) + 1
  | j + 1 =>
    min (prev (j + 1) + 1)
      (min (dpRow A B i prev j + 1)
        (prev j + getCost (A.getD i default) (B.getD j default)))

/-- The DP table of `DiffAnalyzer.compare`:
`dpVal A B i j` is `dp[i][j]`, the minimum cost to convert `A[0..i-1]` into
`B[0..j-1]`.  Row 0 is the base row `dp[0][j] = j`. -/
def dpVal (A B : List BetaAction) : ℕ → ℕ → ℚ
  | 0 => fun j => (j : ℚ)
  | i + 1 => dpRow A B i (dpVal A B i)

/-- Backtracking positions with `i = 0`: the source's loop can only take
insertion steps there (the deletion guard requires `i > 0`). -/
def backtrackRow0 (A B : List BetaAction) : ℕ → List DiffOp
  | 0 => []
  | j + 1 =>
    if dpVal A B 0 (j + 1) = dpVal A B 0 j + 1 then
      backtrackRow0 A B j ++
        [⟨DiffOpType.insert, none, some (B.getD j default), "缺失动作 (A无B有)"⟩]
    else []

/-- Backtracking positions with first index `i + 1`, given the results for
first index `i` as `prev`.  This mirrors one iteration of the source's loop:
with `j = 0` only the deletion branch can fire; with `j > 0` the
match/substitute step is preferred, then deletion, then insertion.  The
source `unshift`s each discovered operation, so the earlier-index operations
come first: appending the current operation after the recursively produced
prefix reproduces that order.  The final `[]` branches are unreachable (the DP
entry always equals one of the candidates; at that point the source would
loop forever). -/
def backtrackRow (A B : List BetaAction) (i : ℕ) (prev : ℕ → List DiffOp) :
    ℕ → List DiffOp
  | 0 =>
    if dpVal A B (i + 1) 0 = dpVal A B i 0 + 1 then
      prev 0 ++ [⟨DiffOpType.delete, some (A.getD i default), none, "多余动作 (A有B无)"⟩]
    else []
  | j + 1 =>
    if dpVal A B (i + 1) (j + 1) = dpVal A B i j + getCost (A.getD i default) (B.getD j default) then
      prev j ++
        [if getCost (A.getD i default) (B.getD j default) = 0 then
            ⟨DiffOpType.matchOp, some (A.getD i default), some (B.getD j default), "动作一致"⟩
          else
            ⟨DiffOpType.substitute, some (A.getD i default), some (B.getD j default),
              if getCost (A.getD i default) (B.getD j default) = 1 / 2 then "支点选择不同"
              else "技术动作差异"⟩]
    else if dpVal A B (i + 1) (j + 1) = dpVal A B i (j + 1) + 1 then
      prev (j + 1) ++
        [⟨DiffOpType.delete, some (A.getD i default), none, "多余动作 (A有B无)"⟩]
    else if dpVal A B (i + 1) (j + 1) = dpVal A B (i + 1) j + 1 then
      backtrackRow A B i prev j ++
        [⟨DiffOpType.insert, none, some (B.getD j default), "缺失动作 (A无B有)"⟩]
    else []

/-- Backtracking phase of `DiffAnalyzer.compare`, organized by first index so
the recursion is structural; the equation lemmas below restate the loop's
case analysis in the source's orientation. -/
def backtrack (A B : List BetaAction) : ℕ → ℕ → List DiffOp
  | 0 => backtrackRow0 A B
  | i + 1 => backtrackRow A B i (backtrack A B i)

/-- diff_analyzer.ts `DiffAnalyzer.compare`. -/
def DiffAnalyzer.compare (seqA seqB : List BetaAction) : DiffResult :=
  { cost := dpVal seqA seqB seqA.length seqB.length
    operations := backtrack seqA seqB seqA.length seqB.length }

/-- The insert/delete role swap described by the spec's diff-symmetry claim:
delete of `a` becomes insert of `a`, insert of `b` becomes delete of `b`,
match/substitute swap their `itemA`/`itemB` roles. -/
def swapOp (o : DiffOp) : DiffOp :=
  match o.type with
  | DiffOpType.delete => ⟨DiffOpType.insert, none, o.itemA, "缺失动作 (A无B有)"⟩
  | DiffOpType.insert => ⟨DiffOpType.delete, o.itemB, none, "多余动作 (A有B无)"⟩
  | t => ⟨t, o.itemB, o.itemA, o.description⟩

-- ============ api/roboflow.ts ============

/-- Polygon outline point. -/
structure PolyPoint where
  x : ℚ
  y : ℚ
deriving DecidableEq

/-- api/roboflow.ts `RoboflowPrediction` (the fields consumed by the logic
under verification; the source field `class` is a Lean keyword, so it is
named `cls` here). -/
structure RoboflowPrediction where
  x : ℚ
  y : ℚ
  width : ℚ
  height : ℚ
  confidence : ℚ
  cls : String
  points : List PolyPoint
deriving DecidableEq

instance : Inhabited RoboflowPrediction :=
  ⟨⟨0, 0, 0, 0, 0, "", []⟩⟩

/-- Replace the first occurrence of `pat` in `s` by the empty string.
JS `String.prototype.replace` with a string pattern replaces only the first
occurrence, unlike Lean's `String.replace`, which replaces all. -/
def removeFirst (s pat : String) : String :=
  match s.splitOn pat with
  | [] => s
  | x :: rest => if rest = [] then s else x ++ String.intercalate pat rest

/-- api/roboflow.ts `getMainColor`: strip `"-hold"` (first occurrence) and take
the part before the first dash (`split('-')[0]`; `split` always returns at
least one part). -/
def getMainColor (holdClass : String) : String :=
  ((removeFirst holdClass "-hold").splitOn "-").headD ""

-- ============ hold_detector.ts: fusion (mergeDetections) ============

/-- hold_detector.ts `MergedHold`. -/
structure MergedHold where
  predictions : List RoboflowPrediction
  avgX : ℚ
  avgY : ℚ
  frameCount : ℕ
  color : String
deriving DecidableEq

/-- `Math.max(...predictions.map(p => p.confidence))` (hold_detector.ts
`removeOverlappingHolds`).  On an empty list the source yields `-Infinity`;
merged holds always carry at least one prediction (see the C7 invariant), so
the `[]` branch below is unreachable in the modelled pipeline. -/
def maxConfOf (m : MergedHold) : ℚ :=
  match m.predictions.map (fun p => p.confidence) with
  | [] => 0
  | c :: cs => cs.foldl max c

/-- `predictions.reduce((a, b) => a.confidence > b.confidence ? a : b)`
(hold_detector.ts, used by the single-frame filter and by `groupHoldsToRoutes`).
The source throws on an empty list; merged holds always carry at least one
prediction, so the `[]` branch is unreachable in the modelled pipeline. -/
def bestPredOf (m : MergedHold) : RoboflowPrediction :=
  match m.predictions with
  | [] => default
  | p :: ps => ps.foldl (fun a b => if a.confidence > b.confidence then a else b) p

/-- Replace the element at index `i` (if any) by `f` of it. -/
def modifyIdx (l : List α) (i : ℕ) (f : α → α) : List α :=
  match l[i]? with
  | some a => l.set i (f a)
  | none => l

/-- Re-absorb one prediction into an existing merge entry: append it to the
prediction list, recompute the running-average center as the arithmetic mean
(`reduce((s,p) => s+p.x, 0) / length`, written as the list sum here), and
increment the frame-support counter. -/
def updateMerged (pred : RoboflowPrediction) (m : MergedHold) : MergedHold :=
  let preds := m.predictions ++ [pred]
  { predictions := preds
    avgX := (preds.map (fun p => p.x)).sum / (preds.length : ℚ)
    avgY := (preds.map (fun p => p.y)).sum / (preds.length : ℚ)
    frameCount := m.frameCount + 1
    color := m.color }

/-- Inner body of the fusion loop of hold_detector.ts `mergeDetections`: the
prediction is absorbed into the first already-merged hold of the same color
whose center is within `mergeThreshold` pixels (the source breaks out of the
scan at the first match), or opens a new merge entry. -/
def absorbPred (mergeThreshold : ℚ) (merged : List MergedHold)
    (pred : RoboflowPrediction) : List MergedHold :=
  let predColor := getMainColor pred.cls
  match merged.findIdx? (fun m =>
      sqrtLt (distSq pred.x pred.y m.avgX m.avgY) mergeThreshold && (predColor == m.color)) with
  | some i => modifyIdx merged i (updateMerged pred)
  | none =>
    merged ++ [{ predictions := [pred], avgX := pred.x, avgY := pred.y,
                 frameCount := 1, color := predColor }]

/-- hold_detector.ts `mergeDetections`: fold every frame's predictions (in
frame order, then detection order) through `absorbPred`, then drop merges
with single-frame support and best confidence below 0.7. -/
def mergeDetections (frameResults : List (List RoboflowPrediction))
    (mergeThreshold : ℚ) : List MergedHold :=
  let merged := frameResults.flatten.foldl (absorbPred mergeThreshold) []
  merged.filter (fun m => !(m.frameCount == 1 && decide ((bestPredOf m).confidence < 7/10)))

-- ============ hold_detector.ts: cross-color overlap removal ============

/-- hold_detector.ts `OVERLAP_THRESHOLD` (pixels). -/
def OVERLAP_THRESHOLD : ℚ := 35

/-- Inner `j`-scan of hold_detector.ts `removeOverlappingHolds`, for the
current outer hold `h1` against the not-yet-removed holds after it.  The
source's `removed` index set is represented by pruning removed elements from
the returned tail.  Result: `(keep, tail)` where `keep` says whether `h1`
survives its scan and `tail` lists the later holds that remain after it;
when `h1` itself is removed (a later, different-colored, overlapping hold has
strictly higher best confidence) the scan breaks immediately, so the
remaining elements — the displacing hold included — are returned untouched.
The tail is packaged with its `Sublist` proof, which the outer recursion of
`removeOverlappingHolds` consumes for termination. -/
def innerScan (h1 : MergedHold) :
    (l : List MergedHold) → Bool × { t : List MergedHold // t.Sublist l }
  | [] => (true, ⟨[], List.Sublist.slnil⟩)
  | h2 :: rest =>
    if h1.color = h2.color then
      -- same color: no overlap check between same-colored holds
      let r := innerScan h1 rest
      (r.1, ⟨h2 :: r.2.1, r.2.2.cons₂ h2⟩)
    else if sqrtLt (distSq h1.avgX h1.avgY h2.avgX h2.avgY) OVERLAP_THRESHOLD then
      if maxConfOf h2 ≤ maxConfOf h1 then
        -- conf1 >= conf2: h2 is removed, scan continues
        let r := innerScan h1 rest
        (r.1, ⟨r.2.1, r.2.2.cons h2⟩)
      else
        -- conf2 > conf1: h1 is removed and the scan breaks
        (false, ⟨h2 :: rest, List.Sublist.refl _⟩)
    else
      let r := innerScan h1 rest
      (r.1, ⟨h2 :: r.2.1, r.2.2.cons₂ h2⟩)

/-- hold_detector.ts `removeOverlappingHolds`: scan holds in order; each
surviving hold is emitted and removes the later, different-colored holds
within `OVERLAP_THRESHOLD` that it dominates by best confidence (ties favor
the earlier hold); a hold beaten by a strictly more confident later hold is
dropped and the scan moves on. -/
def removeOverlappingHolds : List MergedHold → List MergedHold
  | [] => []
  | h1 :: rest =>
    let r := innerScan h1 rest
    if r.1 then h1 :: removeOverlappingHolds r.2.1 else removeOverlappingHolds r.2.1
termination_by l => l.length
decreasing_by
  all_goals exact Nat.lt_succ_of_le r.2.2.length_le

-- ============ hold_detector.ts: route grouping (groupHoldsToRoutes) ============

/-- hold_detector.ts `MIN_HOLDS_PER_ROUTE`. -/
def MIN_HOLDS_PER_ROUTE : ℕ := 5

/-- hold_detector.ts `COLOR_NAMES` display-name table. -/
def COLOR_NAMES : String → Option String := fun c =>
  if c = "black" then some "黑色" else if c = "blue" then some "蓝色"
  else if c = "brown" then some "棕色" else if c = "cyan" then some "青色"
  else if c = "gray" then some "灰色" else if c = "green" then some "绿色"
  else if c = "orange" then some "橙色" else if c = "pink" then some "粉色"
  else if c = "purple" then some "紫色" else if c = "red" then some "红色"
  else if c = "white" then some "白色" else if c = "yellow" then some "黄色"
  else none

/-- hold_detector.ts `DetectedHold`. -/
structure DetectedHold where
  id : String
  x : ℚ
  y : ℚ
  width : ℚ
  height : ℚ
  confidence : ℚ
  color : String
  colorName : String
  colorClass : String
  points : List PolyPoint
  isTop : Bool
  order : ℕ
deriving DecidableEq

/-- hold_detector.ts `Route`. -/
structure Route where
  color : String
  colorName : String
  colorClass : String
  holds : List DetectedHold
  topHold : Option DetectedHold
  startHold : Option DetectedHold
deriving DecidableEq

/-- One step of the color grouping of `groupHoldsToRoutes`: JS `Map` keys
iterate in insertion order, so the map is an association list in insertion
order. -/
def groupByColorStep (acc : List (String × List MergedHold)) (h : MergedHold) :
    List (String × List MergedHold) :=
  if acc.any (fun p => p.1 == h.color) then
    acc.map (fun p => if p.1 == h.color then (p.1, p.2 ++ [h]) else p)
  else acc ++ [(h.color, [h])]

/-- The `colorGroups` map of `groupHoldsToRoutes`. -/
def groupByColor (holds : List MergedHold) : List (String × List MergedHold) :=
  holds.foldl groupByColorStep []

/-- The naming loop of `groupHoldsToRoutes` over the Y-sorted group (`i` is
the loop index, `n` the sorted group's length): the topmost hold (index 0)
is `"{color}_TOP"` with `isTop` set; every other hold is `"{color}_{order}"`
where `order = n - i` counts from 1 at the bottom. -/
def nameHolds (color colorName : String) (n : ℕ) : ℕ → List MergedHold → List DetectedHold
  | _, [] => []
  | i, m :: rest =>
    let best := bestPredOf m
    let isTop := i == 0
    let order := n - i
    { id := if isTop then color ++ "_TOP" else color ++ "_" ++ toString order
      x := m.avgX
      y := m.avgY
      width := best.width
      height := best.height
      confidence := best.confidence
      color := color
      colorName := colorName
      colorClass := best.cls
      points := best.points
      isTop := isTop
      order := order } :: nameHolds color colorName n (i + 1) rest

/-- Build one route from a surviving color group: sort ascending by `avgY`
(the JS comparator `a.avgY - b.avgY`; JS `sort` is stable, as is `mergeSort`),
name the holds, and take the first/last as top/start.  `colorClass` reads
`routeHolds[0].colorClass`, which exists for every surviving group
(`length ≥ MIN_HOLDS_PER_ROUTE > 0`); the `""` fallback is unreachable there. -/
def mkRoute (color : String) (groupHolds : List MergedHold) : Route :=
  let sorted := groupHolds.mergeSort (fun a b => decide (a.avgY ≤ b.avgY))
  let colorName := (COLOR_NAMES color).getD color
  let routeHolds := nameHolds color colorName sorted.length 0 sorted
  { color := color
    colorName := colorName
    colorClass := ((routeHolds.head?).map (fun h => h.colorClass)).getD ""
    holds := routeHolds
    topHold := routeHolds.head?
    startHold := routeHolds.getLast? }

/-- Result record of `groupHoldsToRoutes`. -/
structure GroupResult where
  routes : List Route
  allHolds : List DetectedHold
deriving DecidableEq

/-- hold_detector.ts `groupHoldsToRoutes`: group by color (insertion order),
drop groups smaller than `MIN_HOLDS_PER_ROUTE`, build and name each surviving
route, collect all named holds in group order, and finally sort the route
list by descending hold count (JS comparator `b.holds.length - a.holds.length`,
stable). -/
def groupHoldsToRoutes (mergedHolds : List MergedHold) : GroupResult :=
  let surviving := (groupByColor mergedHolds).filter
    (fun p => decide (MIN_HOLDS_PER_ROUTE ≤ p.2.length))
  let routes := surviving.map (fun p => mkRoute p.1 p.2)
  { routes := routes.mergeSort (fun a b => decide (b.holds.length ≤ a.holds.length))
    allHolds := (routes.map (fun r => r.holds)).flatten }

-- ============ pose keypoints and nearest-hold search ============

/-- types/index.ts `Keypoint` (`score` and `name` are optional in the source). -/
structure Keypoint where
  x : ℚ
  y : ℚ
  score : Option ℚ
  name : Option String
deriving DecidableEq

/-- climb_report.ts `findNearestHoldInRoute` (the identical helper
`findNearestHold` in hold_detector.ts shares this body): the hold minimizing
the distance to `point`, provided it is under `maxDist`; the accumulator
carries the squared distance of the current nearest (`minDist` starts at
`Infinity`, so the first hold always passes the `dist < minDist` test). -/
def findNearestHoldInRoute (pt : Keypoint) (holds : List DetectedHold)
    (maxDist : ℚ) : Option DetectedHold :=
  (holds.foldl (fun (acc : Option (DetectedHold × ℚ)) hold =>
    let dSq := distSq pt.x pt.y hold.x hold.y
    match acc with
    | none => if sqrtLt dSq maxDist then some (hold, dSq) else none
    | some (best, mSq) =>
      if decide (dSq < mSq) && sqrtLt dSq maxDist then some (hold, dSq)
      else some (best, mSq)) none).map (fun p => p.1)

-- ============ climb_report.ts: detectActiveRouteFromValidFrames ============

/-- climb_report.ts `ValidFrame`: a sampled time with all four limb keypoints
present (collection already enforced their confidence). -/
structure ValidFrame where
  time : ℚ
  leftWrist : Keypoint
  rightWrist : Keypoint
  leftAnkle : Keypoint
  rightAnkle : Keypoint
deriving DecidableEq

/-- Per-color tallies of climb_report.ts `detectActiveRouteFromValidFrames`. -/
structure VoteCounts where
  handVotes : ℕ
  footVotes : ℕ
  total : ℕ
deriving DecidableEq

/-- Vote accumulation: the `colorVotes` JS `Map` is an insertion-ordered
association list; an existing entry is bumped in place, a new color is
appended. -/
def addVote (votes : List (String × VoteCounts)) (c : String) (isHand : Bool) :
    List (String × VoteCounts) :=
  if votes.any (fun p => p.1 == c) then
    votes.map (fun p =>
      if p.1 == c then
        (p.1, { handVotes := p.2.handVotes + (if isHand then 1 else 0)
                footVotes := p.2.footVotes + (if isHand then 0 else 1)
                total := p.2.total + 1 })
      else p)
  else
    votes ++ [(c, { handVotes := if isHand then 1 else 0
                    footVotes := if isHand then 0 else 1
                    total := 1 })]

/-- The four limbs examined per valid frame, in source order, tagged with
`isHand`. -/
def frameLimbs (f : ValidFrame) : List (Keypoint × Bool) :=
  [(f.leftWrist, true), (f.rightWrist, true), (f.leftAnkle, false), (f.rightAnkle, false)]

/-- One frame's voting pass (touch threshold 80 px). -/
def tallyFrame (holds : List DetectedHold) (votes : List (String × VoteCounts))
    (f : ValidFrame) : List (String × VoteCounts) :=
  (frameLimbs f).foldl (fun vs limb =>
    match findNearestHoldInRoute limb.1 holds 80 with
    | some touched => addVote vs touched.color limb.2
    | none => vs) votes

/-- The vote-tally phase of `detectActiveRouteFromValidFrames`. -/
def tallyVotes (frames : List ValidFrame) (holds : List DetectedHold) :
    List (String × VoteCounts) :=
  frames.foldl (tallyFrame holds) []

/-- The selection phase of `detectActiveRouteFromValidFrames`: scan the tally
in insertion order keeping the best eligible color (`handVotes > 0 &&
footVotes > 0 && total > bestScore`, `bestScore` starting at 0). -/
def pickBest (votes : List (String × VoteCounts)) : Option String :=
  (votes.foldl (fun (acc : Option String × ℕ) p =>
    if 0 < p.2.handVotes ∧ 0 < p.2.footVotes ∧ acc.2 < p.2.total then (some p.1, p.2.total)
    else acc) ((none : Option String), 0)).1

/-- climb_report.ts `detectActiveRouteFromValidFrames`: tally, pick the best
eligible color, and return the route of that color if one exists. -/
def detectActiveRouteFromValidFrames (holds : List DetectedHold)
    (routes : List Route) (validFrames : List ValidFrame) : Option Route :=
  match pickBest (tallyVotes validFrames holds) with
  | some c => routes.find? (fun r => r.color == c)
  | none => none

-- ============ hold_detector.ts: detectActiveRoute ============

/-- The limb extraction of hold_detector.ts `detectActiveRoute`: look up the
four named keypoints and keep those present with score above 0.3. -/
def findLimbKeypoints (pose : List Keypoint) : List Keypoint :=
  ([pose.find? (fun p => p.name == some "left_wrist"),
    pose.find? (fun p => p.name == some "right_wrist"),
    pose.find? (fun p => p.name == some "left_ankle"),
    pose.find? (fun p => p.name == some "right_ankle")].filterMap id).filter
    (fun p => decide (3/10 < p.score.getD 0))

/-- Undifferentiated vote bump of `detectActiveRoute` (`Map<string, number>`). -/
def addVoteHD (votes : List (String × ℕ)) (c : String) : List (String × ℕ) :=
  if votes.any (fun p => p.1 == c) then
    votes.map (fun p => if p.1 == c then (p.1, p.2 + 1) else p)
  else votes ++ [(c, 1)]

/-- hold_detector.ts `detectActiveRoute` (input: the pose keypoints detected
on each middle frame): votes are tallied per color over all limbs with no
hand/foot distinction (touch threshold 50 px), and the plurality color wins
(`votes > maxVotes`, `maxVotes` starting at 0). -/
def detectActiveRoute (middleFramePoses : List (List Keypoint))
    (holds : List DetectedHold) (routes : List Route) : Option Route :=
  let colorVotes := middleFramePoses.foldl (fun vs pose =>
    if pose.isEmpty then vs
    else (findLimbKeypoints pose).foldl (fun vs limb =>
      match findNearestHoldInRoute limb holds 50 with
      | some touched => addVoteHD vs touched.color
      | none => vs) vs) []
  let best := colorVotes.foldl (fun (acc : ℕ × Option String) p =>
    if acc.1 < p.2 then (p.2, some p.1) else acc) (0, (none : Option String))
  match best.2 with
  | some c => routes.find? (fun r => r.color == c)
  | none => none

/-- Claim-side count of the votes that ankle keypoints contribute to color `c`
in `detectActiveRoute`'s tally: the two ankle lookups of the source's limb
list, filtered by the same score threshold, whose nearest hold within 50 px
has color `c`. -/
def footVotesHD (middleFramePoses : List (List Keypoint))
    (holds : List DetectedHold) (c : String) : ℕ :=
  (middleFramePoses.map (fun pose =>
    if pose.isEmpty then 0
    else
      let ankles := [pose.find? (fun p => p.name == some "left_ankle"),
        pose.find? (fun p => p.name == some "right_ankle")].filterMap id
      let votes := ankles.filter (fun limb => decide (3/10 < limb.score.getD 0) &&
        ((findNearestHoldInRoute limb holds 50).map (fun h => h.color) == some c))
      votes.length)).sum

-- ============ recognizer.ts: ActionRecognizer ============

/-- types/index.ts `ActionState.state`. -/
inductive LimbPhase
  | Unknown
  | Moving
  | Reaching
  | Holding
deriving DecidableEq

/-- types/index.ts `ActionState`. -/
structure ActionState where
  limb : Limb
  state : LimbPhase
  holdId : Option String
  timestamp : ℚ
deriving DecidableEq

/-- types/index.ts `Hold` (`color` is an HSV/RGB triple). -/
structure Hold where
  id : String
  x : ℚ
  y : ℚ
  radius : ℚ
  color : ℚ × ℚ × ℚ
deriving DecidableEq

/-- The limb's name string, as interpolated by the source. -/
def limbString : Limb → String
  | Limb.leftHand => "leftHand"
  | Limb.rightHand => "rightHand"
  | Limb.leftFoot => "leftFoot"
  | Limb.rightFoot => "rightFoot"

/-- recognizer.ts `findNearestHold`: global nearest hold (no distance cap);
`minDst` starts at `Infinity`, so the first hold always wins the comparison.
The second component is the squared distance of the returned hold. -/
def findNearestHoldR (pt : Keypoint) (holds : List Hold) : Option (Hold × ℚ) :=
  holds.foldl (fun (acc : Option (Hold × ℚ)) h =>
    let dSq := distSq pt.x pt.y h.x h.y
    match acc with
    | none => some (h, dSq)
    | some (t, mSq) => if dSq < mSq then some (h, dSq) else some (t, mSq)) none

/-- recognizer.ts `MOVE_THRES` (px per frame). -/
def MOVE_THRES : ℚ := 2

/-- recognizer.ts `HOLD_DIST_THRES` (px radius to hold center). -/
def HOLD_DIST_THRES : ℚ := 30

/-- recognizer.ts `ActionRecognizer.processLimb` for a single limb: `kp` and
`pkp` are the current and previous pose's keypoint for this limb (`pose.find`
results).  Missing keypoints or low confidence skip the frame entirely; fast
movement switches to `Moving` and clears the held hold; otherwise the nearest
hold within `HOLD_DIST_THRES` is grabbed/stepped unless it is the hold already
held.  The comparisons `vel > MOVE_THRES` and `dist < HOLD_DIST_THRES` are
embedded on squares. -/
def processLimb (holds : List Hold) (limb : Limb) (startTime : ℚ)
    (st : ActionState) (beta : List BetaAction)
    (kp pkp : Option Keypoint) (timestamp : ℚ) : ActionState × List BetaAction :=
  match kp, pkp with
  | some k, some p =>
    if k.score.getD 0 < 3/10 then (st, beta)
    else
      let velSq := distSq k.x k.y p.x p.y
      if MOVE_THRES ^ 2 < velSq then
        (if st.state ≠ LimbPhase.Moving then
            { st with state := LimbPhase.Moving, holdId := none, timestamp := timestamp }
          else { st with timestamp := timestamp }, beta)
      else
        match findNearestHoldR k holds with
        | some nh =>
          if nh.2 < HOLD_DIST_THRES ^ 2 then
            if st.state ≠ LimbPhase.Holding ∨ st.holdId ≠ some nh.1.id then
              ({ st with state := LimbPhase.Holding, holdId := some nh.1.id,
                         timestamp := timestamp },
                beta ++ [{ id := toString timestamp ++ "-" ++ limbString limb
                           timestamp := (timestamp - startTime) / 1000
                           type := if limb.isHand then ActionType.Grab else ActionType.Step
                           limb := limb
                           holdId := nh.1.id
                           description := limbString limb ++
                             (if limb.isHand then " grabs " else " steps on ") ++ nh.1.id }])
            else ({ st with timestamp := timestamp }, beta)
          else
            (if st.state = LimbPhase.Moving then
                { st with state := LimbPhase.Reaching, timestamp := timestamp }
              else { st with timestamp := timestamp }, beta)
        | none =>
          (if st.state = LimbPhase.Moving then
              { st with state := LimbPhase.Reaching, timestamp := timestamp }
            else { st with timestamp := timestamp }, beta)
  | _, _ => (st, beta)

/-- A run of recognizer.ts `ActionRecognizer.update` restricted to one limb,
starting after `prevPose` has been established: each frame supplies the
limb's keypoint (possibly missing) and a timestamp; the previous keypoint is
threaded through (the source stores the whole previous pose unconditionally
at the end of `update`). -/
def runLimb (holds : List Hold) (limb : Limb) (startTime : ℚ) :
    ActionState × List BetaAction → Option Keypoint →
      List (Option Keypoint × ℚ) → ActionState × List BetaAction
  | sb, _, [] => sb
  | sb, pkp, (kp, t) :: rest =>
    runLimb holds limb startTime
      (processLimb holds limb startTime sb.1 sb.2 kp pkp t) kp rest

/-- Claim-side condition for one frame of the amended C2 statement: either
the frame is skipped (missing keypoint, missing previous keypoint, or low
confidence), or the limb moved at most `MOVE_THRES` and hold `X` is still the
nearest hold, within `HOLD_DIST_THRES`. -/
def QuietStep (holds : List Hold) (X : String) (pkp kp : Option Keypoint) : Prop :=
  (kp = none ∨ pkp = none ∨ ∃ k, kp = some k ∧ k.score.getD 0 < 3/10) ∨
  (∃ k p nh, kp = some k ∧ pkp = some p ∧ ¬ k.score.getD 0 < 3/10 ∧
    distSq k.x k.y p.x p.y ≤ MOVE_THRES ^ 2 ∧
    findNearestHoldR k holds = some nh ∧ nh.1.id = X ∧ nh.2 < HOLD_DIST_THRES ^ 2)

/-- `QuietStep` holding along a whole run (previous keypoints threaded the
same way `runLimb` threads them). -/
def QuietRun (holds : List Hold) (X : String) :
    Option Keypoint → List (Option Keypoint × ℚ) → Prop
  | _, [] => True
  | pkp, (kp, _) :: rest => QuietStep holds X pkp kp ∧ QuietRun holds X kp rest

-- ============ recognizer.ts: checkHeelHook ============

/-- The two body sides of `checkHeelHook`. -/
inductive Side
  | left
  | right
deriving DecidableEq

/-- The side's name string. -/
def Side.str : Side → String
  | Side.left => "left"
  | Side.right => "right"

/-- `${side}Foot` from the source. -/
def Side.footLimb : Side → Limb
  | Side.left => Limb.leftFoot
  | Side.right => Limb.rightFoot

/-- `pose.find(p => p.name === nm)`. -/
def findKp (pose : List Keypoint) (nm : String) : Option Keypoint :=
  pose.find? (fun p => p.name == some nm)

/-- Embeds the source predicate `angle(hip, knee, ankle) < 120` (utils/geometry.ts
`angle` composed with the comparison in recognizer.ts `checkHeelHook`).
The source computes `acos(clamp(dot/(|v1||v2|), -1, 1)) * 180/π` with
`v1 = hip - knee`, `v2 = ankle - knee`, returning 0 when either vector is
zero.  `acos` is strictly decreasing with range `[0°, 180°]`, so
`angle < 120°` is equivalent to `clamp(dot/(|v1||v2|)) > cos 120° = -1/2`,
and clamping does not affect a comparison against the interior point `-1/2`,
so the condition is `2·dot > -|v1||v2|`: always true when `dot ≥ 0`, and
equivalent to `4·dot² < |v1|²·|v2|²` when `dot < 0`. -/
def kneeAngleBelow120 (hip knee ankle : Keypoint) : Bool :=
  let dot := (hip.x - knee.x) * (ankle.x - knee.x) + (hip.y - knee.y) * (ankle.y - knee.y)
  let m1 := distSq hip.x hip.y knee.x knee.y
  let m2 := distSq ankle.x ankle.y knee.x knee.y
  decide (m1 = 0) || decide (m2 = 0) || decide (0 ≤ dot) || decide (4 * dot ^ 2 < m1 * m2)

/-- recognizer.ts `lastActionIs`: the type of the last recorded action of this
limb (`filter(...).pop()`). -/
def lastActionIs (beta : List BetaAction) (limb : Limb) (t : ActionType) : Bool :=
  match (beta.filter (fun a => a.limb == limb)).getLast? with
  | some a => a.type == t
  | none => false

/-- recognizer.ts `ActionRecognizer.checkHeelHook` for one side: requires the
hip/knee/ankle keypoints, the foot limb `Holding`, knee angle below 120°,
`ankle.y < knee.y + 20`, and debounces when the limb's immediately preceding
action is already a `HeelHook`. -/
def checkHeelHook (pose : List Keypoint) (side : Side) (footState : ActionState)
    (beta : List BetaAction) (startTime timestamp : ℚ) : List BetaAction :=
  match findKp pose (side.str ++ "_hip"), findKp pose (side.str ++ "_knee"),
      findKp pose (side.str ++ "_ankle") with
  | some hip, some knee, some ankle =>
    if footState.state = LimbPhase.Holding then
      if kneeAngleBelow120 hip knee ankle && decide (ankle.y < knee.y + 20) then
        if !lastActionIs beta side.footLimb ActionType.HeelHook then
          beta ++ [{ id := "hh-" ++ toString timestamp ++ "-" ++ side.str
                     timestamp := (timestamp - startTime) / 1000
                     type := ActionType.HeelHook
                     limb := side.footLimb
                     holdId := footState.holdId.getD "?"
                     description := "Heel Hook with " ++ side.str ++ " leg on " ++
                       footState.holdId.getD "?" }]
        else beta
      else beta
    else beta
  | _, _, _ => beta

-- ============ climb_report.ts: generateDailyReport ============

/-- climb_report.ts `ClimbAttempt`. -/
structure ClimbAttempt where
  id : String
  videoName : String
  routeColor : String
  routeColorName : String
  routeHoldCount : ℕ
  isSuccess : Bool
  topReachedTime : Option ℚ
  duration : ℚ
  maxProgress : ℚ
  thumbnail : Option String
  climbingImage : Option String
  topImage : Option String
deriving DecidableEq

/-- climb_report.ts `RouteStats`. -/
structure RouteStats where
  color : String
  colorName : String
  attempts : ℕ
  successes : ℕ
  successRate : ℤ
deriving DecidableEq

/-- climb_report.ts `DailyReport`. -/
structure DailyReport where
  date : String
  totalAttempts : ℕ
  successCount : ℕ
  failCount : ℕ
  successRate : ℤ
  uniqueRoutes : ℕ
  routeBreakdown : List RouteStats
  attempts : List ClimbAttempt
  totalClimbTime : ℚ
deriving DecidableEq

/-- JS `Math.round` on the nonnegative rationals produced here
(`⌊x + 1/2⌋`; JS rounds half away from zero upward for nonnegative inputs). -/
def jsRound (q : ℚ) : ℤ := ⌊q + 1/2⌋

/-- The failure marker pushed by `generateDailyReport`'s `catch` branch for
attempt index `i`. -/
def failedAttempt (i : ℕ) (name : String) : ClimbAttempt :=
  { id := "failed-" ++ toString i
    videoName := name
    routeColor := "unknown"
    routeColorName := "未知"
    routeHoldCount := 0
    isSuccess := false
    topReachedTime := none
    duration := 0
    maxProgress := 0
    thumbnail := none
    climbingImage := none
    topImage := none }

/-- One step of `compileReport`'s per-color aggregation (`colorMap`, a JS
`Map`, iterates in insertion order); `unknown` attempts are skipped. -/
def colorStatsStep (acc : List (String × ℕ × ℕ)) (a : ClimbAttempt) :
    List (String × ℕ × ℕ) :=
  if a.routeColor = "unknown" then acc
  else if acc.any (fun p => p.1 == a.routeColor) then
    acc.map (fun p =>
      if p.1 == a.routeColor then
        (p.1, p.2.1 + 1, p.2.2 + (if a.isSuccess then 1 else 0))
      else p)
  else acc ++ [(a.routeColor, 1, if a.isSuccess then 1 else 0)]

/-- climb_report.ts `compileReport` (the `date` string comes from the ambient
clock, passed in here). -/
def compileReport (today : String) (attempts : List ClimbAttempt) : DailyReport :=
  let successAttempts := attempts.filter (fun a => a.isSuccess)
  let failAttempts := attempts.filter (fun a => !a.isSuccess)
  let colorMap := attempts.foldl colorStatsStep []
  let routeBreakdown := colorMap.map (fun p =>
    { color := p.1
      colorName := (COLOR_NAMES p.1).getD p.1
      attempts := p.2.1
      successes := p.2.2
      successRate := if 0 < p.2.1 then jsRound ((p.2.2 : ℚ) / (p.2.1 : ℚ) * 100) else 0
      : RouteStats })
  { date := today
    totalAttempts := attempts.length
    successCount := successAttempts.length
    failCount := failAttempts.length
    successRate := if 0 < attempts.length then
        jsRound ((successAttempts.length : ℚ) / (attempts.length : ℚ) * 100)
      else 0
    uniqueRoutes := colorMap.length
    routeBreakdown := routeBreakdown.mergeSort (fun a b => decide (b.attempts ≤ a.attempts))
    attempts := attempts
    totalClimbTime := (attempts.map (fun a => a.duration)).sum }

/-- climb_report.ts `generateDailyReport`, with the per-video analysis
(`analyzeClimbVideo`, an external composite of detection and pose calls)
abstracted as an `Except`-valued function: a thrown analysis records the
failure marker for that index and the batch continues. -/
def generateDailyReport {V E : Type} (videos : List (V × String))
    (analyze : V → String → Except E ClimbAttempt) (today : String) : DailyReport :=
  let attempts := videos.enum.map (fun p =>
    match analyze p.2.1 p.2.2 with
    | Except.ok a => a
    | Except.error _ => failedAttempt p.1 p.2.2)
  compileReport today attempts

-- ============ Claim-side predicates ============

/-- The C7 invariant on a fused hold: the frame-support counter equals the
number of contributing predictions, and the stored center is the arithmetic
mean of the contributing predictions' centers. -/
def FusionInv (m : MergedHold) : Prop :=
  m.frameCount = m.predictions.length ∧
    m.avgX = (m.predictions.map (fun p => p.x)).sum / (m.predictions.length : ℚ) ∧
    m.avgY = (m.predictions.map (fun p => p.y)).sum / (m.predictions.length : ℚ)

-- ============ Concrete data used by witnesses and counterexamples ============

/-- A sample grab action used by the C3 witness. -/
def sampleGrab : BetaAction :=
  { id := "a1", timestamp := 0, type := ActionType.Grab, limb := Limb.leftHand,
    holdId := "yellow_1", description := "leftHand grabs yellow_1" }

/-- A sample step action on the same hold and limb (C4 counterexample data). -/
def sampleStep : BetaAction :=
  { id := "a2", timestamp := 1, type := ActionType.Step, limb := Limb.leftHand,
    holdId := "yellow_1", description := "leftHand steps on yellow_1" }

/-- First sequence of the C4 counterexample. -/
def caSeqA : List BetaAction := [sampleGrab, sampleStep, sampleGrab]

/-- Second sequence of the C4 counterexample. -/
def caSeqB : List BetaAction := [sampleStep, sampleGrab, sampleStep]

/-- Sample prediction for the C7 witness. -/
def wPred : RoboflowPrediction :=
  { x := 10, y := 20, width := 5, height := 5, confidence := 9/10,
    cls := "yellow-hold", points := [] }

/-- The merged hold that `mergeDetections [[wPred]] 40` produces. -/
def wMerged : MergedHold :=
  { predictions := [wPred], avgX := 10, avgY := 20, frameCount := 1,
    color := getMainColor "yellow-hold" }

/-- A merged hold of color `"red"` at height `y` (C5/C6 witness data). -/
def rmh (y : ℚ) : MergedHold :=
  { predictions := [wPred], avgX := 0, avgY := y, frameCount := 1, color := "red" }

/-- Five red merged holds, already sorted by `avgY` (C5 witness input). -/
def c5Input : List MergedHold := [rmh 10, rmh 20, rmh 30, rmh 40, rmh 50]

/-- A single red merged hold (C6 witness input: group smaller than the
route minimum). -/
def c6Input : List MergedHold := [rmh 10]

/-- A detected yellow hold at the origin (C1 data). -/
def vHold : DetectedHold :=
  { id := "yellow_TOP", x := 0, y := 0, width := 10, height := 10,
    confidence := 9/10, color := "yellow", colorName := "黄色",
    colorClass := "yellow-hold", points := [], isTop := true, order := 1 }

/-- The yellow route holding `vHold` (C1 data). -/
def vRoute : Route :=
  { color := "yellow", colorName := "黄色", colorClass := "yellow-hold",
    holds := [vHold], topHold := some vHold, startHold := some vHold }

/-- A pose whose only keypoint is a confident left wrist on `vHold`
(C1 counterexample input: hands touch, feet never do). -/
def vWristPose : List Keypoint :=
  [{ x := 0, y := 0, score := some (9/10), name := some "left_wrist" }]

/-- A valid frame with all four limbs on `vHold` (C1 witness input). -/
def vFrame : ValidFrame :=
  { time := 0
    leftWrist := { x := 0, y := 0, score := some 1, name := some "left_wrist" }
    rightWrist := { x := 0, y := 0, score := some 1, name := some "right_wrist" }
    leftAnkle := { x := 0, y := 0, score := some 1, name := some "left_ankle" }
    rightAnkle := { x := 0, y := 0, score := some 1, name := some "right_ankle" } }

/-- The single hold of the C2 runs. -/
def c2Hold : Hold := { id := "X", x := 0, y := 0, radius := 10, color := (0, 0, 0) }

/-- A confident left-wrist keypoint at abscissa `x` (C2 data). -/
def c2kp (x : ℚ) : Keypoint :=
  { x := x, y := 0, score := some 1, name := some "left_wrist" }

/-- C2 counterexample frames: settle on the hold, jump 5 px (still within
the 30 px holding distance), settle again. -/
def c2Frames : List (Option Keypoint × ℚ) :=
  [(some (c2kp 0), 1), (some (c2kp 5), 2), (some (c2kp 5), 3)]

/-- Initial limb state of the C2 counterexample run. -/
def c2Init : ActionState :=
  { limb := Limb.leftHand, state := LimbPhase.Unknown, holdId := none, timestamp := 0 }

/-- A limb state holding hold `"X"` (C2 witness data). -/
def c2Holding : ActionState :=
  { limb := Limb.leftHand, state := LimbPhase.Holding, holdId := some "X", timestamp := 0 }

/-- Pose for the C8 witness: left hip, knee and ankle forming a sharply bent
knee with the ankle above the knee. -/
def hhPose : List Keypoint :=
  [{ x := 0, y := 0, score := some 1, name := some "left_hip" },
   { x := 10, y := 0, score := some 1, name := some "left_knee" },
   { x := 0, y := -1, score := some 1, name := some "left_ankle" }]

/-- Foot state for the C8 witness: holding a hold. -/
def hhState : ActionState :=
  { limb := Limb.leftFoot, state := LimbPhase.Holding, holdId := some "G1", timestamp := 0 }

/-- A successfully analyzed attempt (C9 witness data). -/
def c9Attempt : ClimbAttempt :=
  { id := "climb-1", videoName := "v0", routeColor := "yellow",
    routeColorName := "黄色", routeHoldCount := 7, isSuccess := true,
    topReachedTime := some 30, duration := 60, maxProgress := 100,
    thumbnail := none, climbingImage := none, topImage := none }

/-- The C9 witness batch: two videos, of which the second fails analysis. -/
def c9Videos : List (Unit × String) := [((), "v0"), ((), "v1")]

/-- The C9 witness analysis function: succeeds on `"v0"`, throws otherwise. -/
def c9Analyze : Unit → String → Except Unit ClimbAttempt := fun _ nm =>
  if nm = "v0" then Except.ok c9Attempt else Except.error ()

/-- Red and blue merged holds 10 px apart (within `OVERLAP_THRESHOLD`), the
red one more confident (C10 witness input). -/
def c10Red : MergedHold :=
  { predictions := [wPred], avgX := 0, avgY := 0, frameCount := 1, color := "red" }

/-- The (less confident) prediction behind the C10 blue hold. -/
def c10BluePred : RoboflowPrediction :=
  { x := 10, y := 0, width := 5, height := 5, confidence := 1/2,
    cls := "blue-hold", points := [] }

/-- The dominated blue hold of the C10 witness. -/
def c10Blue : MergedHold :=
  { predictions := [c10BluePred], avgX := 10, avgY := 0, frameCount := 1, color := "blue" }

-- ============ Theorems ============

-- Equation lemmas restating the DP recurrence and the backtracking case
-- analysis in the source's orientation.

/-- Base row of the DP recurrence (`dp[0][j] = j`). -/
theorem dpVal_zero (A B : List BetaAction) (j : ℕ) : dpVal A B 0 j = (j : ℚ) := rfl

/-- Base column of the DP recurrence (`dp[i][0] = i`). -/
theorem dpVal_succ_zero (A B : List BetaAction) (i : ℕ) :
    dpVal A B (i + 1) 0 = (i : ℚ) + 1 := rfl

/-- The source's DP recurrence
`dp[i][j] = min(dp[i-1][j]+1, dp[i][j-1]+1, dp[i-1][j-1]+cost)`. -/
theorem dpVal_succ_succ (A B : List BetaAction) (i j : ℕ) :
    dpVal A B (i + 1) (j + 1) =
      min (dpVal A B i (j + 1) + 1)
        (min (dpVal A B (i + 1) j + 1)
          (dpVal A B i j + getCost (A.getD i default) (B.getD j default))) := rfl

/-- Backtracking terminates at the origin. -/
theorem backtrack_zero_zero (A B : List BetaAction) : backtrack A B 0 0 = [] := rfl

/-- Backtracking step with `j = 0` (pure deletion column). -/
theorem backtrack_succ_zero (A B : List BetaAction) (i : ℕ) :
    backtrack A B (i + 1) 0 =
      if dpVal A B (i + 1) 0 = dpVal A B i 0 + 1 then
        backtrack A B i 0 ++
          [⟨DiffOpType.delete, some (A.getD i default), none, "多余动作 (A有B无)"⟩]
      else [] := rfl

/-- Backtracking step with `i = 0` (pure insertion row). -/
theorem backtrack_zero_succ (A B : List BetaAction) (j : ℕ) :
    backtrack A B 0 (j + 1) =
      if dpVal A B 0 (j + 1) = dpVal A B 0 j + 1 then
        backtrack A B 0 j ++
          [⟨DiffOpType.insert, none, some (B.getD j default), "缺失动作 (A无B有)"⟩]
      else [] := rfl

/-- General backtracking step: match/substitute preferred, then deletion,
then insertion, exactly as in the source. -/
theorem backtrack_succ_succ (A B : List BetaAction) (i j : ℕ) :
    backtrack A B (i + 1) (j + 1) =
      if dpVal A B (i + 1) (j + 1) =
          dpVal A B i j + getCost (A.getD i default) (B.getD j default) then
        backtrack A B i j ++
          [if getCost (A.getD i default) (B.getD j default) = 0 then
              ⟨DiffOpType.matchOp, some (A.getD i default), some (B.getD j default), "动作一致"⟩
            else
              ⟨DiffOpType.substitute, some (A.getD i default), some (B.getD j default),
                if getCost (A.getD i default) (B.getD j default) = 1 / 2 then "支点选择不同"
                else "技术动作差异"⟩]
      else if dpVal A B (i + 1) (j + 1) = dpVal A B i (j + 1) + 1 then
        backtrack A B i (j + 1) ++
          [⟨DiffOpType.delete, some (A.getD i default), none, "多余动作 (A有B无)"⟩]
      else if dpVal A B (i + 1) (j + 1) = dpVal A B (i + 1) j + 1 then
        backtrack A B (i + 1) j ++
          [⟨DiffOpType.insert, none, some (B.getD j default), "缺失动作 (A无B有)"⟩]
      else [] := rfl

theorem getCost_nonneg (a b : BetaAction) : 0 ≤ getCost a b := by
  unfold getCost
  split_ifs <;> norm_num

theorem getCost_self (a : BetaAction) : getCost a a = 0 := by
  simp [getCost]

theorem getCost_symm (a b : BetaAction) : getCost a b = getCost b a := by
  unfold getCost
  have hl : a.limb = b.limb ↔ b.limb = a.limb := eq_comm
  have hh : a.holdId = b.holdId ↔ b.holdId = a.holdId := eq_comm
  have ht : a.type = b.type ↔ b.type = a.type := eq_comm
  split_ifs <;> first | rfl | tauto

theorem dpVal_nonneg (A B : List BetaAction) : ∀ i j, 0 ≤ dpVal A B i j := by
  intro i
  induction i with
  | zero => intro j; rw [dpVal_zero]; positivity
  | succ i ih =>
    intro j
    induction j with
    | zero => rw [dpVal_succ_zero]; positivity
    | succ j ihj =>
      have h1 := ih (j + 1)
      have h3 := ih j
      have h4 := getCost_nonneg (A.getD i default) (B.getD j default)
      rw [dpVal_succ_succ]
      exact le_min (by linarith) (le_min (by linarith) (by linarith))

theorem dpVal_self_diag (S : List BetaAction) : ∀ i, dpVal S S i i = 0 := by
  intro i
  induction i with
  | zero => rw [dpVal_zero]; norm_num
  | succ i ih =>
    have h1 := dpVal_nonneg S S i (i + 1)
    have h2 := dpVal_nonneg S S (i + 1) i
    rw [dpVal_succ_succ, ih, getCost_self, add_zero]
    apply le_antisymm
    · exact le_trans (min_le_right _ _) (min_le_right _ _)
    · exact le_min (by linarith) (le_min (by linarith) le_rfl)

theorem backtrack_self_diag (S : List BetaAction) :
    ∀ i, (backtrack S S i i).length = i ∧
      ∀ op ∈ backtrack S S i i, op.type = DiffOpType.matchOp := by
  intro i
  induction i with
  | zero => rw [backtrack_zero_zero]; simp
  | succ i ih =>
    have hcond : dpVal S S (i + 1) (i + 1) =
        dpVal S S i i + getCost (S.getD i default) (S.getD i default) := by
      rw [dpVal_self_diag, dpVal_self_diag, getCost_self, add_zero]
    have hstep : backtrack S S (i + 1) (i + 1) =
        backtrack S S i i ++
          [⟨DiffOpType.matchOp, some (S.getD i default), some (S.getD i default), "动作一致"⟩] := by
      rw [backtrack_succ_succ, if_pos hcond, if_pos (getCost_self _)]
    rw [hstep]
    refine ⟨by simp [ih.1], ?_⟩
    intro op hop
    rcases List.mem_append.1 hop with h | h
    · exact ih.2 op h
    · simp only [List.mem_singleton] at h
      subst h
      rfl

/-- C3: For every non-empty action sequence `S`, `compare S S` yields total
cost 0 and an operation list of length `|S|` consisting solely of `match`
operations. -/
theorem C3_diff_identity (S : List BetaAction) (hS : S ≠ []) :
    (DiffAnalyzer.compare S S).cost = 0 ∧
      (DiffAnalyzer.compare S S).operations.length = S.length ∧
      ∀ op ∈ (DiffAnalyzer.compare S S).operations, op.type = DiffOpType.matchOp := by
  refine ⟨?_, (backtrack_self_diag S S.length).1, (backtrack_self_diag S S.length).2⟩
  exact dpVal_self_diag S S.length

/-- Witness for C3 at the singleton sequence `[sampleGrab]`. -/
theorem C3_diff_identity_witness :
    [sampleGrab] ≠ ([] : List BetaAction) ∧
      ((DiffAnalyzer.compare [sampleGrab] [sampleGrab]).cost = 0 ∧
        (DiffAnalyzer.compare [sampleGrab] [sampleGrab]).operations.length =
          [sampleGrab].length ∧
        ∀ op ∈ (DiffAnalyzer.compare [sampleGrab] [sampleGrab]).operations,
          op.type = DiffOpType.matchOp) :=
  ⟨by simp, C3_diff_identity [sampleGrab] (by simp)⟩

theorem dpVal_symm (A B : List BetaAction) : ∀ i j, dpVal A B i j = dpVal B A j i := by
  intro i
  induction i with
  | zero =>
    intro j
    cases j with
    | zero => rfl
    | succ j => rw [dpVal_zero, dpVal_succ_zero]; push_cast; ring
  | succ i ih =>
    intro j
    induction j with
    | zero => rw [dpVal_succ_zero, dpVal_zero]; push_cast; ring
    | succ j ihj =>
      rw [dpVal_succ_succ, dpVal_succ_succ, ih (j + 1), ihj, ih j, getCost_symm]
      exact min_left_comm _ _ _

/-- C4 (amended): `compare A B` and `compare B A` always have the same total
cost.  (The original claim's structural correspondence of the operation lists
under insert/delete swapping fails; see `C4_counterexample`.) -/
theorem C4_diff_cost_symmetric (A B : List BetaAction) :
    (DiffAnalyzer.compare A B).cost = (DiffAnalyzer.compare B A).cost := by
  simpa [DiffAnalyzer.compare] using dpVal_symm A B A.length B.length

/-- C4 counterexample: for `A = [Grab, Step, Grab]` and `B = [Step, Grab, Step]`
(all on the same limb and hold), the operation list of `compare B A` is not the
insert/delete swap of the operation list of `compare A B`: the backtracking
tie-break prefers deletion over insertion in both directions, so the two runs
resolve the mismatched endpoints on opposite sides. -/
theorem C4_counterexample :
    ¬ ((DiffAnalyzer.compare caSeqA caSeqB).operations.map swapOp =
        (DiffAnalyzer.compare caSeqB caSeqA).operations) := by
  have hgs : ¬ (ActionType.Grab = ActionType.Step) := fun h => nomatch h
  have hsg : ¬ (ActionType.Step = ActionType.Grab) := fun h => nomatch h
  norm_num [DiffAnalyzer.compare, caSeqA, caSeqB, sampleGrab, sampleStep, dpVal_zero,
    dpVal_succ_zero, dpVal_succ_succ, backtrack_zero_zero, backtrack_zero_succ,
    backtrack_succ_zero, backtrack_succ_succ, getCost, min_def, swapOp, hgs, hsg]

-- ============ C7: fusion invariant ============

theorem fusionInv_updateMerged (pred : RoboflowPrediction) (m : MergedHold)
    (h : FusionInv m) : FusionInv (updateMerged pred m) := by
  refine ⟨?_, rfl, rfl⟩
  simp [updateMerged, h.1]

theorem fusionInv_new (pred : RoboflowPrediction) (c : String) :
    FusionInv { predictions := [pred], avgX := pred.x, avgY := pred.y,
                frameCount := 1, color := c } := by
  refine ⟨by simp, ?_, ?_⟩ <;> simp

theorem fusionInv_absorbPred (mt : ℚ) (merged : List MergedHold)
    (pred : RoboflowPrediction) (h : ∀ m ∈ merged, FusionInv m) :
    ∀ m ∈ absorbPred mt merged pred, FusionInv m := by
  intro m hm
  simp only [absorbPred] at hm
  split at hm
  · -- findIdx? = some i
    unfold modifyIdx at hm
    split at hm
    · -- merged[i]? = some a
      rename_i a hget
      rcases List.mem_or_eq_of_mem_set hm with h' | h'
      · exact h m h'
      · subst h'
        exact fusionInv_updateMerged pred a (h a (List.getElem?_mem hget))
    · exact h m hm
  · -- findIdx? = none
    rcases List.mem_append.1 hm with h' | h'
    · exact h m h'
    · simp only [List.mem_singleton] at h'
      subst h'
      exact fusionInv_new pred _

theorem fusionInv_foldl (mt : ℚ) (preds : List RoboflowPrediction) :
    ∀ init, (∀ m ∈ init, FusionInv m) →
      ∀ m ∈ preds.foldl (absorbPred mt) init, FusionInv m := by
  induction preds with
  | nil => intro init h m hm; exact h m hm
  | cons p ps ih =>
    intro init h m hm
    simp only [List.foldl_cons] at hm
    exact ih (absorbPred mt init p) (fusionInv_absorbPred mt init p h) m hm

/-- C7: every `MergedHold` produced at any point during detection fusion
(any prefix of the absorption fold, and the final filtered output of
`mergeDetections`) has `frameCount` equal to the length of its
contributing-prediction list and a center equal to the arithmetic mean of the
contributing predictions' centers. -/
theorem C7_fusion_invariant (frameResults : List (List RoboflowPrediction))
    (mergeThreshold : ℚ) :
    (∀ k, ∀ m ∈ (frameResults.flatten.take k).foldl (absorbPred mergeThreshold) [],
        FusionInv m) ∧
      ∀ m ∈ mergeDetections frameResults mergeThreshold, FusionInv m := by
  constructor
  · intro k m hm
    exact fusionInv_foldl mergeThreshold _ [] (by simp) m hm
  · intro m hm
    unfold mergeDetections at hm
    exact fusionInv_foldl mergeThreshold _ [] (by simp) m (List.mem_of_mem_filter hm)

/-- Witness for C7 at a one-frame, one-prediction input. -/
theorem C7_fusion_invariant_witness :
    wMerged ∈ mergeDetections [[wPred]] 40 ∧ FusionInv wMerged := by
  have hmem : wMerged ∈ mergeDetections [[wPred]] 40 := by
    norm_num [mergeDetections, absorbPred, bestPredOf, wMerged, wPred]
  exact ⟨hmem, (C7_fusion_invariant [[wPred]] 40).2 wMerged hmem⟩

-- ============ grouping lemmas (C5, C6) ============

/-- Invariant of the color-grouping fold: keys are distinct and every member
of a group has the group's color. -/
def GroupInv (acc : List (String × List MergedHold)) : Prop :=
  (acc.map Prod.fst).Nodup ∧ ∀ p ∈ acc, ∀ x ∈ p.2, x.color = p.1

theorem groupByColorStep_inv (acc : List (String × List MergedHold))
    (h : MergedHold) (hInv : GroupInv acc) : GroupInv (groupByColorStep acc h) := by
  obtain ⟨hnd, hcol⟩ := hInv
  unfold groupByColorStep
  split
  · constructor
    · have : ((acc.map fun p => if p.1 == h.color then (p.1, p.2 ++ [h]) else p).map Prod.fst)
          = acc.map Prod.fst := by
        rw [List.map_map]
        apply List.map_congr_left
        intro p _
        by_cases hb : p.1 = h.color <;> simp [hb]
      rw [this]
      exact hnd
    · intro p hp x hx
      rcases List.mem_map.1 hp with ⟨q, hq, hfq⟩
      by_cases hb : q.1 == h.color
      · rw [if_pos hb] at hfq
        subst hfq
        rcases List.mem_append.1 hx with h' | h'
        · exact hcol q hq x h'
        · simp only [List.mem_singleton] at h'
          subst h'
          exact (eq_of_beq hb).symm
      · rw [if_neg hb] at hfq
        subst hfq
        exact hcol q hq x hx
  · rename_i hany
    constructor
    · rw [List.map_append]
      apply List.Nodup.append hnd (by simp)
      intro a ha hb
      simp only [List.map_cons, List.map_nil, List.mem_singleton] at hb
      subst hb
      rcases List.mem_map.1 ha with ⟨q, hq, hfq⟩
      exact hany (List.any_eq_true.2 ⟨q, hq, by simp [hfq]⟩)
    · intro p hp x hx
      rcases List.mem_append.1 hp with h' | h'
      · exact hcol p h' x hx
      · simp only [List.mem_singleton] at h'
        subst h'
        simp only [List.mem_singleton] at hx
        subst hx
        rfl

theorem groupByColor_inv (holds : List MergedHold) : GroupInv (groupByColor holds) := by
  unfold groupByColor
  have : ∀ (l : List MergedHold) (acc : List (String × List MergedHold)),
      GroupInv acc → GroupInv (l.foldl groupByColorStep acc) := by
    intro l
    induction l with
    | nil => intro acc h; exact h
    | cons x xs ih =>
      intro acc h
      simp only [List.foldl_cons]
      exact ih _ (groupByColorStep_inv acc x h)
  exact this holds [] ⟨by simp, by simp⟩

theorem assoc_nodup_unique {α : Type} {gs : List (String × α)}
    (hnd : (gs.map Prod.fst).Nodup) {c : String} {g g' : α}
    (h1 : (c, g) ∈ gs) (h2 : (c, g') ∈ gs) : g = g' := by
  induction gs with
  | nil => cases h1
  | cons p ps ih =>
    simp only [List.map_cons, List.nodup_cons] at hnd
    rcases List.mem_cons.1 h1 with e1 | m1 <;> rcases List.mem_cons.1 h2 with e2 | m2
    · rw [← e2] at e1; exact congrArg Prod.snd e1
    · exfalso
      exact hnd.1 (e1 ▸ List.mem_map.2 ⟨(c, g'), m2, rfl⟩)
    · exfalso
      exact hnd.1 (e2 ▸ List.mem_map.2 ⟨(c, g), m1, rfl⟩)
    · exact ih hnd.2 m1 m2

theorem nameHolds_color (c cn : String) (n : ℕ) :
    ∀ (i : ℕ) (s : List MergedHold), ∀ h ∈ nameHolds c cn n i s, h.color = c := by
  intro i s
  induction s generalizing i with
  | nil => intro h hh; cases hh
  | cons m rest ih =>
    intro h hh
    rcases List.mem_cons.1 hh with e | m'
    · subst e; rfl
    · exact ih (i + 1) h m'

theorem mkRoute_color (c : String) (g : List MergedHold) : (mkRoute c g).color = c := rfl

theorem mkRoute_holds_color (c : String) (g : List MergedHold) :
    ∀ h ∈ (mkRoute c g).holds, h.color = c := by
  intro h hh
  exact nameHolds_color c _ _ 0 _ h hh

theorem mem_routes_groupHoldsToRoutes {mergedHolds : List MergedHold} {r : Route}
    (hr : r ∈ (groupHoldsToRoutes mergedHolds).routes) :
    ∃ p ∈ groupByColor mergedHolds, MIN_HOLDS_PER_ROUTE ≤ p.2.length ∧
      r = mkRoute p.1 p.2 := by
  unfold groupHoldsToRoutes at hr
  simp only at hr
  rw [List.mem_mergeSort] at hr
  rcases List.mem_map.1 hr with ⟨p, hp, hmk⟩
  rw [List.mem_filter] at hp
  exact ⟨p, hp.1, by simpa using hp.2, hmk.symm⟩

/-- C6: no route is emitted for a color whose group has fewer than
`MIN_HOLDS_PER_ROUTE` holds, and no hold of such a group appears in any
emitted route's hold list (`allHolds` collects exactly the emitted routes'
holds). -/
theorem C6_route_minimum_size (mergedHolds : List MergedHold) (c : String)
    (g : List MergedHold) (hg : (c, g) ∈ groupByColor mergedHolds)
    (hsmall : g.length < MIN_HOLDS_PER_ROUTE) :
    (∀ r ∈ (groupHoldsToRoutes mergedHolds).routes, r.color ≠ c) ∧
      ∀ h ∈ (groupHoldsToRoutes mergedHolds).allHolds, h.color ≠ c := by
  have hinv := groupByColor_inv mergedHolds
  have key : ∀ p ∈ groupByColor mergedHolds, MIN_HOLDS_PER_ROUTE ≤ p.2.length → p.1 ≠ c := by
    intro p hp hbig heq
    have : p.2 = g := assoc_nodup_unique hinv.1 (heq ▸ hp) hg
    rw [this] at hbig
    exact absurd hbig (Nat.not_le.2 hsmall)
  constructor
  · intro r hr
    rcases mem_routes_groupHoldsToRoutes hr with ⟨p, hp, hbig, hmk⟩
    rw [hmk, mkRoute_color]
    exact key p hp hbig
  · intro h hh
    unfold groupHoldsToRoutes at hh
    simp only at hh
    rcases List.mem_flatten.1 hh with ⟨hs, hhs, hmem⟩
    rcases List.mem_map.1 hhs with ⟨r, hr, hrh⟩
    rcases List.mem_map.1 hr with ⟨p, hp, hmk⟩
    rw [List.mem_filter] at hp
    rw [← hrh, ← hmk] at hmem
    rw [mkRoute_holds_color p.1 p.2 h hmem]
    exact key p hp.1 (by simpa using hp.2)

theorem nameHolds_length (c cn : String) (n : ℕ) :
    ∀ (i : ℕ) (s : List MergedHold), (nameHolds c cn n i s).length = s.length := by
  intro i s
  induction s generalizing i with
  | nil => rfl
  | cons m rest ih => simp [nameHolds, ih (i + 1)]

theorem nameHolds_get (c cn : String) (n : ℕ) :
    ∀ (s : List MergedHold) (i k : ℕ) (hk : k < (nameHolds c cn n i s).length)
      (hk2 : k < s.length),
      ((nameHolds c cn n i s).get ⟨k, hk⟩).y = (s.get ⟨k, hk2⟩).avgY ∧
        ((nameHolds c cn n i s).get ⟨k, hk⟩).order = n - (i + k) ∧
        ((nameHolds c cn n i s).get ⟨k, hk⟩).isTop = ((i + k) == 0) ∧
        ((nameHolds c cn n i s).get ⟨k, hk⟩).id =
          (if i + k = 0 then c ++ "_TOP" else c ++ "_" ++ toString (n - (i + k))) := by
  intro s
  induction s with
  | nil => intro i k hk hk2; simp at hk2
  | cons m rest ih =>
    intro i k hk hk2
    cases k with
    | zero =>
      refine ⟨rfl, by simp [nameHolds], ?_, ?_⟩
      · show (i == 0) = ((i + 0) == 0)
        simp
      · show (if (i == 0 : Bool) then c ++ "_TOP" else c ++ "_" ++ toString (n - i)) = _
        simp only [Nat.add_zero]
        by_cases hi : i = 0 <;> simp [hi]
    | succ k' =>
      have hk' : k' < (nameHolds c cn n (i + 1) rest).length := by
        simp only [nameHolds, List.length_cons] at hk
        omega
      have hk2' : k' < rest.length := by
        simp only [List.length_cons] at hk2
        omega
      have h2 := ih (i + 1) k' hk' hk2'
      have harith : i + 1 + k' = i + (k' + 1) := by omega
      rw [harith] at h2
      exact h2

theorem mergeSort_avgY_pairwise (g : List MergedHold) :
    List.Pairwise (fun a b => a.avgY ≤ b.avgY)
      (g.mergeSort (fun a b => decide (a.avgY ≤ b.avgY))) := by
  have h : List.Pairwise (fun a b : MergedHold => (decide (a.avgY ≤ b.avgY) : Bool) = true)
      (g.mergeSort (fun a b : MergedHold => decide (a.avgY ≤ b.avgY))) := List.sorted_mergeSort
    (fun a b c hab hbc => by
      simp only [decide_eq_true_eq] at *
      exact le_trans hab hbc)
    (fun a b => by
      simp only [Bool.or_eq_true, decide_eq_true_eq]
      exact le_total a.avgY b.avgY)
    g
  exact h.imp (fun hab => by simpa using hab)

theorem mkRoute_holds (c : String) (g : List MergedHold) :
    (mkRoute c g).holds =
      nameHolds c ((COLOR_NAMES c).getD c)
        (g.mergeSort (fun a b => decide (a.avgY ≤ b.avgY))).length 0
        (g.mergeSort (fun a b => decide (a.avgY ≤ b.avgY))) := rfl

theorem mkRoute_topHold (c : String) (g : List MergedHold) :
    (mkRoute c g).topHold = (mkRoute c g).holds.head? := rfl

theorem mkRoute_startHold (c : String) (g : List MergedHold) :
    (mkRoute c g).startHold = (mkRoute c g).holds.getLast? := rfl

/-- C5: in every produced route, the designated `topHold` has the minimum `y`
among the route's holds and the highest ordinal and is named
`"{color}_TOP"`; the designated `startHold` has the maximum `y`; every
non-top hold at sorted position `k` is named `"{color}_{order}"` with
`order = length - k` (so rank 1 is the lowest hold and ranks increase toward
the top, the holds being listed top-down by `y`). -/
theorem C5_route_top_start (mergedHolds : List MergedHold) :
    ∀ r ∈ (groupHoldsToRoutes mergedHolds).routes,
      ∃ t s, r.topHold = some t ∧ r.startHold = some s ∧
        t ∈ r.holds ∧ s ∈ r.holds ∧
        t.isTop = true ∧ t.id = r.color ++ "_TOP" ∧ t.order = r.holds.length ∧
        (∀ h ∈ r.holds, t.y ≤ h.y ∧ h.y ≤ s.y ∧ h.order ≤ t.order) ∧
        (∀ k (hk : k < r.holds.length), k ≠ 0 →
          (r.holds.get ⟨k, hk⟩).isTop = false ∧
            (r.holds.get ⟨k, hk⟩).order = r.holds.length - k ∧
            (r.holds.get ⟨k, hk⟩).id =
              r.color ++ "_" ++ toString (r.holds.length - k)) ∧
        (∀ j k (hj : j < r.holds.length) (hk : k < r.holds.length), j ≤ k →
          (r.holds.get ⟨j, hj⟩).y ≤ (r.holds.get ⟨k, hk⟩).y) := by
  intro r hr
  rcases mem_routes_groupHoldsToRoutes hr with ⟨p, hp, hbig, hmk⟩
  subst hmk
  have hlen0 : (p.2.mergeSort (fun a b => decide (a.avgY ≤ b.avgY))).length = p.2.length :=
    List.length_mergeSort _
  have hlen : (mkRoute p.1 p.2).holds.length = p.2.length := by
    rw [mkRoute_holds, nameHolds_length, hlen0]
  have hpos : 0 < (mkRoute p.1 p.2).holds.length := by
    rw [hlen]
    have : 0 < MIN_HOLDS_PER_ROUTE := by norm_num [MIN_HOLDS_PER_ROUTE]
    omega
  have hpair := mergeSort_avgY_pairwise p.2
  rw [List.pairwise_iff_getElem] at hpair
  -- positional facts about the named holds
  have hget : ∀ k (hk : k < (mkRoute p.1 p.2).holds.length),
      ((mkRoute p.1 p.2).holds.get ⟨k, hk⟩).y =
          ((p.2.mergeSort (fun a b => decide (a.avgY ≤ b.avgY))).get
            ⟨k, by rw [hlen0]; rw [hlen] at hk; exact hk⟩).avgY ∧
        ((mkRoute p.1 p.2).holds.get ⟨k, hk⟩).order = (mkRoute p.1 p.2).holds.length - k ∧
        ((mkRoute p.1 p.2).holds.get ⟨k, hk⟩).isTop = (k == 0) ∧
        ((mkRoute p.1 p.2).holds.get ⟨k, hk⟩).id =
          (if k = 0 then p.1 ++ "_TOP" else p.1 ++ "_" ++
            toString ((mkRoute p.1 p.2).holds.length - k)) := by
    intro k hk
    have hk2 : k < (p.2.mergeSort (fun a b => decide (a.avgY ≤ b.avgY))).length := by
      rw [hlen0]
      rw [hlen] at hk
      exact hk
    have h := nameHolds_get p.1 ((COLOR_NAMES p.1).getD p.1)
      (p.2.mergeSort (fun a b => decide (a.avgY ≤ b.avgY))).length
      (p.2.mergeSort (fun a b => decide (a.avgY ≤ b.avgY))) 0 k
      (by rw [← mkRoute_holds]; exact hk) hk2
    have hn : (p.2.mergeSort (fun a b => decide (a.avgY ≤ b.avgY))).length =
        (mkRoute p.1 p.2).holds.length := by rw [hlen0, hlen]
    refine ⟨h.1, ?_, ?_, ?_⟩
    · exact h.2.1.trans (by omega)
    · exact h.2.2.1.trans (by norm_num)
    · refine h.2.2.2.trans ?_
      simp only [Nat.zero_add]
      rw [hn]
  -- y-monotonicity along the hold list
  have hmono : ∀ j k (hj : j < (mkRoute p.1 p.2).holds.length)
      (hk : k < (mkRoute p.1 p.2).holds.length), j ≤ k →
      ((mkRoute p.1 p.2).holds.get ⟨j, hj⟩).y ≤ ((mkRoute p.1 p.2).holds.get ⟨k, hk⟩).y := by
    intro j k hj hk hjk
    rw [(hget j hj).1, (hget k hk).1]
    rcases Nat.lt_or_ge j k with hlt | hge
    · exact hpair j k (by rw [hlen0]; rw [hlen] at hj; exact hj)
        (by rw [hlen0]; rw [hlen] at hk; exact hk) hlt
    · have : j = k := le_antisymm hjk hge
      subst this
      rfl
  -- top and start holds
  have hlast : (mkRoute p.1 p.2).holds.length - 1 < (mkRoute p.1 p.2).holds.length := by omega
  refine ⟨(mkRoute p.1 p.2).holds.get ⟨0, hpos⟩,
    (mkRoute p.1 p.2).holds.get ⟨(mkRoute p.1 p.2).holds.length - 1, hlast⟩, ?_, ?_, ?_, ?_, ?_, ?_, ?_, ?_, ?_, ?_⟩
  · rw [mkRoute_topHold, List.head?_eq_getElem?, List.getElem?_eq_getElem hpos]
    simp
  · rw [mkRoute_startHold, List.getLast?_eq_getElem?, List.getElem?_eq_getElem hlast]
    simp
  · exact List.get_mem _ _ _
  · exact List.get_mem _ _ _
  · rw [(hget 0 hpos).2.2.1]
    rfl
  · rw [(hget 0 hpos).2.2.2]
    simp [mkRoute_color]
  · rw [(hget 0 hpos).2.1]
    omega
  · intro h hh
    rcases List.mem_iff_get.1 hh with ⟨⟨k, hk⟩, hkEq⟩
    subst hkEq
    refine ⟨hmono 0 k hpos hk (Nat.zero_le k), hmono k _ hk hlast (by omega), ?_⟩
    rw [(hget k hk).2.1, (hget 0 hpos).2.1]
    omega
  · intro k hk hk0
    refine ⟨?_, (hget k hk).2.1, ?_⟩
    · rw [(hget k hk).2.2.1]
      simp [hk0]
    · rw [(hget k hk).2.2.2, if_neg hk0, mkRoute_color]
  · exact hmono

-- ============ C10: cross-color overlap removal ============

theorem distSq_symm (x1 y1 x2 y2 : ℚ) : distSq x1 y1 x2 y2 = distSq x2 y2 x1 y1 := by
  unfold distSq
  ring

theorem innerScan_keep_far (h1 : MergedHold) :
    ∀ l : List MergedHold, (innerScan h1 l).1 = true →
      ∀ h2 ∈ (innerScan h1 l).2.1, h1.color ≠ h2.color →
        sqrtLt (distSq h1.avgX h1.avgY h2.avgX h2.avgY) OVERLAP_THRESHOLD = false := by
  intro l
  induction l with
  | nil =>
    intro _ h2 hh2
    simp [innerScan] at hh2
  | cons h2 rest ih =>
    by_cases hcol : h1.color = h2.color
    · simp only [innerScan, if_pos hcol]
      intro hkeep h3 hh3 hne
      rcases List.mem_cons.1 hh3 with e | m
      · subst e; exact absurd hcol hne
      · exact ih hkeep h3 m hne
    · by_cases hclose :
          sqrtLt (distSq h1.avgX h1.avgY h2.avgX h2.avgY) OVERLAP_THRESHOLD = true
      · by_cases hconf : maxConfOf h2 ≤ maxConfOf h1
        · simp only [innerScan, if_neg hcol, if_pos hclose, if_pos hconf]
          intro hkeep h3 hh3 hne
          exact ih hkeep h3 hh3 hne
        · simp only [innerScan, if_neg hcol, if_pos hclose, if_neg hconf]
          intro hkeep
          cases hkeep
      · simp only [innerScan, if_neg hcol, if_neg hclose]
        intro hkeep h3 hh3 hne
        rcases List.mem_cons.1 hh3 with e | m
        · subst e
          exact Bool.of_not_eq_true hclose
        · exact ih hkeep h3 m hne

theorem innerScan_dropped (h1 : MergedHold) :
    ∀ l : List MergedHold, ∀ h ∈ l, h ∉ (innerScan h1 l).2.1 →
      h1.color ≠ h.color ∧
        sqrtLt (distSq h1.avgX h1.avgY h.avgX h.avgY) OVERLAP_THRESHOLD = true ∧
        maxConfOf h ≤ maxConfOf h1 := by
  intro l
  induction l with
  | nil => intro h hh; cases hh
  | cons h2 rest ih =>
    by_cases hcol : h1.color = h2.color
    · simp only [innerScan, if_pos hcol]
      intro h hh hnot
      rcases List.mem_cons.1 hh with e | m
      · subst e
        exact absurd (List.mem_cons_self _ _) hnot
      · exact ih h m (fun hmem => hnot (List.mem_cons_of_mem _ hmem))
    · by_cases hclose :
          sqrtLt (distSq h1.avgX h1.avgY h2.avgX h2.avgY) OVERLAP_THRESHOLD = true
      · by_cases hconf : maxConfOf h2 ≤ maxConfOf h1
        · simp only [innerScan, if_neg hcol, if_pos hclose, if_pos hconf]
          intro h hh hnot
          rcases List.mem_cons.1 hh with e | m
          · subst e
            exact ⟨hcol, hclose, hconf⟩
          · exact ih h m hnot
        · simp only [innerScan, if_neg hcol, if_pos hclose, if_neg hconf]
          intro h hh hnot
          exact absurd hh hnot
      · simp only [innerScan, if_neg hcol, if_neg hclose]
        intro h hh hnot
        rcases List.mem_cons.1 hh with e | m
        · subst e
          exact absurd (List.mem_cons_self _ _) hnot
        · exact ih h m (fun hmem => hnot (List.mem_cons_of_mem _ hmem))

theorem innerScan_break (h1 : MergedHold) :
    ∀ l : List MergedHold, (innerScan h1 l).1 = false →
      ∃ h2 ∈ l, h2.color ≠ h1.color ∧
        sqrtLt (distSq h1.avgX h1.avgY h2.avgX h2.avgY) OVERLAP_THRESHOLD = true ∧
        maxConfOf h1 ≤ maxConfOf h2 := by
  intro l
  induction l with
  | nil =>
    intro hfalse
    simp [innerScan] at hfalse
  | cons h2 rest ih =>
    by_cases hcol : h1.color = h2.color
    · simp only [innerScan, if_pos hcol]
      intro hf
      rcases ih hf with ⟨h3, hm, hprops⟩
      exact ⟨h3, List.mem_cons_of_mem _ hm, hprops⟩
    · by_cases hclose :
          sqrtLt (distSq h1.avgX h1.avgY h2.avgX h2.avgY) OVERLAP_THRESHOLD = true
      · by_cases hconf : maxConfOf h2 ≤ maxConfOf h1
        · simp only [innerScan, if_neg hcol, if_pos hclose, if_pos hconf]
          intro hf
          rcases ih hf with ⟨h3, hm, hprops⟩
          exact ⟨h3, List.mem_cons_of_mem _ hm, hprops⟩
        · simp only [innerScan, if_neg hcol, if_pos hclose, if_neg hconf]
          intro _
          exact ⟨h2, List.mem_cons_self _ _, fun e => hcol e.symm, hclose,
            le_of_lt (lt_of_not_le hconf)⟩
      · simp only [innerScan, if_neg hcol, if_neg hclose]
        intro hf
        rcases ih hf with ⟨h3, hm, hprops⟩
        exact ⟨h3, List.mem_cons_of_mem _ hm, hprops⟩

theorem innerScan_monochrome (h1 : MergedHold) :
    ∀ l : List MergedHold, (∀ b ∈ l, h1.color = b.color) →
      innerScan h1 l = (true, ⟨l, List.Sublist.refl l⟩) := by
  intro l
  induction l with
  | nil => intro _; rfl
  | cons h2 rest ih =>
    intro hall
    have hcol : h1.color = h2.color := hall h2 (List.mem_cons_self _ _)
    have hrest := ih (fun b hb => hall b (List.mem_cons_of_mem _ hb))
    simp only [innerScan, if_pos hcol, hrest]

theorem roh_nil : removeOverlappingHolds [] = [] := by
  rw [removeOverlappingHolds]

theorem roh_eq (h1 : MergedHold) (rest : List MergedHold) :
    removeOverlappingHolds (h1 :: rest) =
      if (innerScan h1 rest).1 then h1 :: removeOverlappingHolds (innerScan h1 rest).2.1
      else removeOverlappingHolds (innerScan h1 rest).2.1 := by
  rw [removeOverlappingHolds]

theorem roh_sublist : ∀ (n : ℕ) (l : List MergedHold), l.length ≤ n →
    (removeOverlappingHolds l).Sublist l := by
  intro n
  induction n with
  | zero =>
    intro l hl
    rw [List.length_eq_zero.1 (Nat.le_zero.1 hl), roh_nil]
  | succ n ih =>
    intro l hl
    cases l with
    | nil => rw [roh_nil]
    | cons h1 rest =>
      rw [roh_eq]
      have hsub := (innerScan h1 rest).2.2
      have hlen : (innerScan h1 rest).2.1.length ≤ n := by
        have := hsub.length_le
        simp only [List.length_cons] at hl
        omega
      split
      · exact ((ih _ hlen).trans hsub).cons₂ h1
      · exact ((ih _ hlen).trans hsub).cons h1

theorem roh_pairwise : ∀ (n : ℕ) (l : List MergedHold), l.length ≤ n →
    List.Pairwise (fun a b => a.color ≠ b.color →
      sqrtLt (distSq a.avgX a.avgY b.avgX b.avgY) OVERLAP_THRESHOLD = false)
      (removeOverlappingHolds l) := by
  intro n
  induction n with
  | zero =>
    intro l hl
    rw [List.length_eq_zero.1 (Nat.le_zero.1 hl), roh_nil]
    exact List.Pairwise.nil
  | succ n ih =>
    intro l hl
    cases l with
    | nil =>
      rw [roh_nil]
      exact List.Pairwise.nil
    | cons h1 rest =>
      rw [roh_eq]
      have hsub := (innerScan h1 rest).2.2
      have hlen : (innerScan h1 rest).2.1.length ≤ n := by
        have := hsub.length_le
        simp only [List.length_cons] at hl
        omega
      split
      · rename_i hkeep
        refine List.pairwise_cons.2 ⟨?_, ih _ hlen⟩
        intro b hb hne
        have hbmem : b ∈ (innerScan h1 rest).2.1 :=
          (roh_sublist n _ hlen).mem hb
        exact innerScan_keep_far h1 rest hkeep b hbmem hne
      · exact ih _ hlen

theorem roh_monochrome : ∀ (n : ℕ) (l : List MergedHold), l.length ≤ n →
    (∀ a ∈ l, ∀ b ∈ l, a.color = b.color) → removeOverlappingHolds l = l := by
  intro n
  induction n with
  | zero =>
    intro l hl _
    rw [List.length_eq_zero.1 (Nat.le_zero.1 hl), roh_nil]
  | succ n ih =>
    intro l hl hmono
    cases l with
    | nil => rw [roh_nil]
    | cons h1 rest =>
      have hscan := innerScan_monochrome h1 rest
        (fun b hb => hmono h1 (List.mem_cons_self _ _) b (List.mem_cons_of_mem _ hb))
      rw [roh_eq, hscan]
      simp only [if_true]
      have hlen : rest.length ≤ n := by
        simp only [List.length_cons] at hl
        omega
      rw [ih rest hlen
        (fun a ha b hb => hmono a (List.mem_cons_of_mem _ ha) b (List.mem_cons_of_mem _ hb))]

theorem roh_removed : ∀ (n : ℕ) (l : List MergedHold), l.length ≤ n →
    ∀ h ∈ l, h ∉ removeOverlappingHolds l →
      ∃ h2 ∈ l, h2.color ≠ h.color ∧
        sqrtLt (distSq h.avgX h.avgY h2.avgX h2.avgY) OVERLAP_THRESHOLD = true ∧
        maxConfOf h ≤ maxConfOf h2 := by
  intro n
  induction n with
  | zero =>
    intro l hl h hmem
    rw [List.length_eq_zero.1 (Nat.le_zero.1 hl)] at hmem
    cases hmem
  | succ n ih =>
    intro l hl h hmem hnot
    cases l with
    | nil => cases hmem
    | cons h1 rest =>
      have hsub := (innerScan h1 rest).2.2
      have hlen : (innerScan h1 rest).2.1.length ≤ n := by
        have := hsub.length_le
        simp only [List.length_cons] at hl
        omega
      rw [roh_eq] at hnot
      by_cases hkeep : (innerScan h1 rest).1 = true
      · rw [if_pos hkeep] at hnot
        rcases List.mem_cons.1 hmem with e | m
        · subst e
          exact absurd (List.mem_cons_self _ _) hnot
        · by_cases hin : h ∈ (innerScan h1 rest).2.1
          · have hnot2 : h ∉ removeOverlappingHolds (innerScan h1 rest).2.1 :=
              fun hc => hnot (List.mem_cons_of_mem _ hc)
            rcases ih _ hlen h hin hnot2 with ⟨h2, hm2, hprops⟩
            exact ⟨h2, List.mem_cons_of_mem _ (hsub.mem hm2), hprops⟩
          · rcases innerScan_dropped h1 rest h m hin with ⟨hne, hclose, hconf⟩
            refine ⟨h1, List.mem_cons_self _ _, hne, ?_, hconf⟩
            rw [distSq_symm]
            exact hclose
      · have hkeepF : (innerScan h1 rest).1 = false := Bool.of_not_eq_true hkeep
        rw [if_neg hkeep] at hnot
        rcases List.mem_cons.1 hmem with e | m
        · subst e
          rcases innerScan_break h rest hkeepF with ⟨h2, hm2, hne, hclose, hconf⟩
          exact ⟨h2, List.mem_cons_of_mem _ hm2, hne, hclose, hconf⟩
        · by_cases hin : h ∈ (innerScan h1 rest).2.1
          · rcases ih _ hlen h hin hnot with ⟨h2, hm2, hprops⟩
            exact ⟨h2, List.mem_cons_of_mem _ (hsub.mem hm2), hprops⟩
          · rcases innerScan_dropped h1 rest h m hin with ⟨hne, hclose, hconf⟩
            refine ⟨h1, List.mem_cons_self _ _, hne, ?_, hconf⟩
            rw [distSq_symm]
            exact hclose

/-- C10: the output of cross-color overlap removal is a sublist of the input;
no two output holds of different colors lie within `OVERLAP_THRESHOLD` of
each other; an input whose holds all share one color passes through
unchanged (same-color holds are never removed by this step); and every
removed hold has a differently-colored input hold within the threshold whose
maximum prediction confidence is at least the removed hold's. -/
theorem C10_overlap_removal (holds : List MergedHold) :
    (removeOverlappingHolds holds).Sublist holds ∧
      List.Pairwise (fun a b => a.color ≠ b.color →
        sqrtLt (distSq a.avgX a.avgY b.avgX b.avgY) OVERLAP_THRESHOLD = false)
        (removeOverlappingHolds holds) ∧
      ((∀ a ∈ holds, ∀ b ∈ holds, a.color = b.color) →
        removeOverlappingHolds holds = holds) ∧
      ∀ h ∈ holds, h ∉ removeOverlappingHolds holds →
        ∃ h2 ∈ holds, h2.color ≠ h.color ∧
          sqrtLt (distSq h.avgX h.avgY h2.avgX h2.avgY) OVERLAP_THRESHOLD = true ∧
          maxConfOf h ≤ maxConfOf h2 :=
  ⟨roh_sublist holds.length holds le_rfl,
    roh_pairwise holds.length holds le_rfl,
    roh_monochrome holds.length holds le_rfl,
    roh_removed holds.length holds le_rfl⟩

-- ============ C1: active-route selection ============

theorem pickBest_fold_spec (l : List (String × VoteCounts)) :
    ∀ acc : Option String × ℕ,
      acc.2 ≤ (l.foldl (fun (acc : Option String × ℕ) p =>
          if 0 < p.2.handVotes ∧ 0 < p.2.footVotes ∧ acc.2 < p.2.total then
            (some p.1, p.2.total) else acc) acc).2 ∧
      (∀ p ∈ l, 0 < p.2.handVotes → 0 < p.2.footVotes →
        p.2.total ≤ (l.foldl (fun (acc : Option String × ℕ) p =>
          if 0 < p.2.handVotes ∧ 0 < p.2.footVotes ∧ acc.2 < p.2.total then
            (some p.1, p.2.total) else acc) acc).2) ∧
      ((l.foldl (fun (acc : Option String × ℕ) p =>
          if 0 < p.2.handVotes ∧ 0 < p.2.footVotes ∧ acc.2 < p.2.total then
            (some p.1, p.2.total) else acc) acc) = acc ∨
        ∃ q ∈ l, (l.foldl (fun (acc : Option String × ℕ) p =>
            if 0 < p.2.handVotes ∧ 0 < p.2.footVotes ∧ acc.2 < p.2.total then
              (some p.1, p.2.total) else acc) acc).1 = some q.1 ∧
          0 < q.2.handVotes ∧ 0 < q.2.footVotes ∧
          q.2.total = (l.foldl (fun (acc : Option String × ℕ) p =>
            if 0 < p.2.handVotes ∧ 0 < p.2.footVotes ∧ acc.2 < p.2.total then
              (some p.1, p.2.total) else acc) acc).2) := by
  induction l with
  | nil => intro acc; exact ⟨le_rfl, by simp, Or.inl rfl⟩
  | cons p l ih =>
    intro acc
    simp only [List.foldl_cons]
    by_cases hcond : 0 < p.2.handVotes ∧ 0 < p.2.footVotes ∧ acc.2 < p.2.total
    · rw [if_pos hcond]
      rcases ih (some p.1, p.2.total) with ⟨hmono, hbound, hprov⟩
      refine ⟨le_trans (le_of_lt hcond.2.2) hmono, ?_, ?_⟩
      · intro q hq hh hf
        rcases List.mem_cons.1 hq with e | m
        · subst e; exact hmono
        · exact hbound q m hh hf
      · rcases hprov with he | ⟨q, hm, hq⟩
        · exact Or.inr ⟨p, List.mem_cons_self _ _, by rw [he], hcond.1,
            hcond.2.1, by rw [he]⟩
        · exact Or.inr ⟨q, List.mem_cons_of_mem _ hm, hq⟩
    · rw [if_neg hcond]
      rcases ih acc with ⟨hmono, hbound, hprov⟩
      refine ⟨hmono, ?_, ?_⟩
      · intro q hq hh hf
        rcases List.mem_cons.1 hq with e | m
        · subst e
          have : ¬ acc.2 < q.2.total := fun hlt => hcond ⟨hh, hf, hlt⟩
          exact le_trans (Nat.le_of_not_lt this) hmono
        · exact hbound q m hh hf
      · rcases hprov with he | ⟨q, hm, hq⟩
        · exact Or.inl he
        · exact Or.inr ⟨q, List.mem_cons_of_mem _ hm, hq⟩

theorem pickBest_spec (votes : List (String × VoteCounts)) (c : String)
    (h : pickBest votes = some c) :
    ∃ vc, (c, vc) ∈ votes ∧ 0 < vc.handVotes ∧ 0 < vc.footVotes ∧
      ∀ p ∈ votes, 0 < p.2.handVotes → 0 < p.2.footVotes → p.2.total ≤ vc.total := by
  unfold pickBest at h
  rcases pickBest_fold_spec votes ((none : Option String), 0) with ⟨_, hbound, hprov⟩
  rcases hprov with he | ⟨q, hm, hq1, hqh, hqf, hq2⟩
  · rw [he] at h
    cases h
  · rw [hq1] at h
    have hc : q.1 = c := Option.some.inj h
    refine ⟨q.2, ?_, hqh, hqf, ?_⟩
    · rw [← hc]
      exact hm
    · intro p hp hh hf
      rw [hq2]
      exact hbound p hp hh hf

/-- C1 (amended): whenever `detectActiveRouteFromValidFrames` returns a route,
that route's color received at least one hand vote and at least one foot vote
in the tally, and its total is maximal among the colors with both kinds of
votes.  (The original claim, which also covers the older
`detectActiveRoute` selector of hold_detector.ts, is refuted by
`C1_counterexample`: that selector tallies undifferentiated limb votes and
can return a route whose color received zero foot votes.) -/
theorem C1_active_route_eligibility (holds : List DetectedHold)
    (routes : List Route) (validFrames : List ValidFrame) (r : Route)
    (h : detectActiveRouteFromValidFrames holds routes validFrames = some r) :
    ∃ vc, (r.color, vc) ∈ tallyVotes validFrames holds ∧
      0 < vc.handVotes ∧ 0 < vc.footVotes ∧
      ∀ p ∈ tallyVotes validFrames holds,
        0 < p.2.handVotes → 0 < p.2.footVotes → p.2.total ≤ vc.total := by
  unfold detectActiveRouteFromValidFrames at h
  split at h
  · rename_i c hc
    have hfind := List.find?_some h
    have hcolor : r.color = c := by simpa using hfind
    rw [hcolor]
    exact pickBest_spec _ c hc
  · cases h

-- ============ C2: no duplicate Grab/Step while the held hold is unchanged ============

theorem processLimb_quiet (holds : List Hold) (limb : Limb) (startTime : ℚ)
    (st : ActionState) (beta : List BetaAction) (kp pkp : Option Keypoint)
    (t : ℚ) (X : String) (hst : st.state = LimbPhase.Holding)
    (hid : st.holdId = some X) (hq : QuietStep holds X pkp kp) :
    (processLimb holds limb startTime st beta kp pkp t).2 = beta ∧
      (processLimb holds limb startTime st beta kp pkp t).1.state = LimbPhase.Holding ∧
      (processLimb holds limb startTime st beta kp pkp t).1.holdId = some X := by
  rcases hq with hskip | ⟨k, p, nh, hk, hp, hscore, hvel, hnear, hnid, hdist⟩
  · rcases hskip with hk | hp | ⟨k, hk, hscore⟩
    · subst hk
      exact ⟨rfl, hst, hid⟩
    · subst hp
      cases kp <;> exact ⟨rfl, hst, hid⟩
    · subst hk
      cases hpk : pkp with
      | none => exact ⟨rfl, hst, hid⟩
      | some p =>
        simp only [processLimb, if_pos hscore]
        exact ⟨by trivial, hst, hid⟩
  · subst hk
    subst hp
    have hnotmove : ¬ MOVE_THRES ^ 2 < distSq k.x k.y p.x p.y := not_lt.2 hvel
    have hcond : ¬ (st.state ≠ LimbPhase.Holding ∨ st.holdId ≠ some nh.1.id) := by
      rw [not_or]
      refine ⟨by simp [hst], ?_⟩
      rw [hid, hnid]
      simp
    simp only [processLimb, if_neg hscore, if_neg hnotmove, hnear, if_pos hdist,
      if_neg hcond]
    exact ⟨by trivial, hst, hid⟩

/-- C2 (amended): once a limb is `Holding` hold `X`, no further action at all
(in particular no duplicate `Grab`/`Step` for `X`) is emitted, and the limb
stays `Holding` `X`, for as long as every subsequent frame either is skipped
(missing keypoint or confidence below 0.3) or moves the keypoint at most
`MOVE_THRES` while `X` remains the nearest hold within `HOLD_DIST_THRES`.
(The original claim — no duplicate while the keypoint merely stays within the
holding-distance threshold of `X` — is refuted by `C2_counterexample`: an
in-threshold displacement above the move threshold resets the state and a
second `Grab` is emitted.) -/
theorem C2_no_duplicate_while_quiet (holds : List Hold) (limb : Limb)
    (startTime : ℚ) (st : ActionState) (beta : List BetaAction) (X : String)
    (pkp : Option Keypoint) (frames : List (Option Keypoint × ℚ))
    (hst : st.state = LimbPhase.Holding) (hid : st.holdId = some X)
    (hq : QuietRun holds X pkp frames) :
    (runLimb holds limb startTime (st, beta) pkp frames).2 = beta ∧
      (runLimb holds limb startTime (st, beta) pkp frames).1.state = LimbPhase.Holding ∧
      (runLimb holds limb startTime (st, beta) pkp frames).1.holdId = some X := by
  induction frames generalizing st beta pkp with
  | nil => exact ⟨rfl, hst, hid⟩
  | cons f rest ih =>
    obtain ⟨kp, t⟩ := f
    obtain ⟨hq1, hq2⟩ := hq
    obtain ⟨hb, hs, hh⟩ := processLimb_quiet holds limb startTime st beta kp pkp t X
      hst hid hq1
    have step : runLimb holds limb startTime (st, beta) pkp ((kp, t) :: rest) =
        runLimb holds limb startTime
          (processLimb holds limb startTime st beta kp pkp t) kp rest := rfl
    rw [step]
    have hrun := ih (processLimb holds limb startTime st beta kp pkp t).1
      (processLimb holds limb startTime st beta kp pkp t).2 kp hs hh hq2
    exact ⟨hrun.1.trans hb, hrun.2.1, hrun.2.2⟩

-- ============ C8: heel-hook emission condition ============

/-- C8: with the side's hip, knee and ankle keypoints present in the pose, a
`HeelHook` action is appended for the side's foot limb exactly when that limb
is `Holding`, the knee angle (characterized rationally by
`kneeAngleBelow120`) is below 120°, `ankle.y < knee.y + 20`, and the limb's
immediately preceding recorded action is not already a `HeelHook`. -/
theorem C8_heel_hook_condition (pose : List Keypoint) (side : Side)
    (footState : ActionState) (beta : List BetaAction) (startTime timestamp : ℚ)
    (hip knee ankle : Keypoint)
    (hhip : findKp pose (side.str ++ "_hip") = some hip)
    (hknee : findKp pose (side.str ++ "_knee") = some knee)
    (hankle : findKp pose (side.str ++ "_ankle") = some ankle) :
    (∃ a, checkHeelHook pose side footState beta startTime timestamp = beta ++ [a] ∧
        a.type = ActionType.HeelHook ∧ a.limb = side.footLimb ∧
        a.holdId = footState.holdId.getD "?") ↔
      footState.state = LimbPhase.Holding ∧
        kneeAngleBelow120 hip knee ankle = true ∧
        ankle.y < knee.y + 20 ∧
        lastActionIs beta side.footLimb ActionType.HeelHook = false := by
  unfold checkHeelHook
  rw [hhip, hknee, hankle]
  simp only
  by_cases h1 : footState.state = LimbPhase.Holding
  · rw [if_pos h1]
    by_cases h2 : (kneeAngleBelow120 hip knee ankle &&
        decide (ankle.y < knee.y + 20)) = true
    · rw [if_pos h2]
      have h2' := h2
      rw [Bool.and_eq_true] at h2'
      obtain ⟨h2a, h2b⟩ := h2'
      by_cases h3 : lastActionIs beta side.footLimb ActionType.HeelHook = false
      · rw [if_pos (by simp [h3])]
        constructor
        · intro _
          exact ⟨h1, h2a, of_decide_eq_true h2b, h3⟩
        · intro _
          exact ⟨_, rfl, rfl, rfl, rfl⟩
      · rw [if_neg (by simpa using h3)]
        constructor
        · intro ⟨a, ha, _⟩
          exfalso
          have := congrArg List.length ha
          simp at this
        · intro hc
          exact absurd hc.2.2.2 h3
    · rw [if_neg h2]
      constructor
      · intro ⟨a, ha, _⟩
        exfalso
        have := congrArg List.length ha
        simp at this
      · intro hc
        exact absurd (by simp [hc.2.1, hc.2.2.1]) h2
  · rw [if_neg h1]
    constructor
    · intro ⟨a, ha, _⟩
      exfalso
      have := congrArg List.length ha
      simp at this
    · intro hc
      exact absurd hc.1 h1

-- ============ C9: batch error isolation ============

theorem generateDailyReport_attempts {V E : Type} (videos : List (V × String))
    (analyze : V → String → Except E ClimbAttempt) (today : String) :
    (generateDailyReport videos analyze today).attempts =
      videos.enum.map (fun p =>
        match analyze p.2.1 p.2.2 with
        | Except.ok a => a
        | Except.error _ => failedAttempt p.1 p.2.2) := rfl

/-- C9: the batch loop records exactly one attempt per input video, in order;
an attempt whose analysis throws is recorded as the failure marker for its
index (duration 0, route color `"unknown"`, not successful, zero progress)
while every successfully analyzed attempt — in particular every attempt
before a failure — is recorded unchanged. -/
theorem C9_batch_error_isolation {V E : Type} (videos : List (V × String))
    (analyze : V → String → Except E ClimbAttempt) (today : String) :
    (generateDailyReport videos analyze today).attempts.length = videos.length ∧
      (generateDailyReport videos analyze today).totalAttempts = videos.length ∧
      (∀ (i : ℕ) (nm : String), (failedAttempt i nm).duration = 0 ∧
        (failedAttempt i nm).routeColor = "unknown" ∧
        (failedAttempt i nm).isSuccess = false ∧ (failedAttempt i nm).maxProgress = 0) ∧
      ∀ (i : ℕ) (v : V) (nm : String), videos[i]? = some (v, nm) →
        (∀ e, analyze v nm = Except.error e →
          (generateDailyReport videos analyze today).attempts[i]? =
            some (failedAttempt i nm)) ∧
        ∀ a, analyze v nm = Except.ok a →
          (generateDailyReport videos analyze today).attempts[i]? = some a := by
  have hlen : (generateDailyReport videos analyze today).attempts.length = videos.length := by
    rw [generateDailyReport_attempts, List.length_map, List.enum_length]
  refine ⟨hlen, ?_, ?_, ?_⟩
  · have : (generateDailyReport videos analyze today).totalAttempts =
        (generateDailyReport videos analyze today).attempts.length := rfl
    rw [this, hlen]
  · intro i nm
    exact ⟨rfl, rfl, rfl, rfl⟩
  · intro i v nm hv
    have hat : (generateDailyReport videos analyze today).attempts[i]? =
        (videos[i]?.map (fun a => (i, a))).map (fun p =>
          match analyze p.2.1 p.2.2 with
          | Except.ok a => a
          | Except.error _ => failedAttempt p.1 p.2.2) := by
      rw [generateDailyReport_attempts, List.getElem?_map, List.getElem?_enum]
    rw [hv] at hat
    constructor
    · intro e he
      rw [hat]
      simp [he]
    · intro a ha
      rw [hat]
      simp [ha]

-- ============ Witnesses and counterexamples ============

/-- C1 counterexample: hold_detector.ts `detectActiveRoute` — also covered by
the claim — returns the yellow route on an input where yellow's only vote
comes from a wrist and its foot-vote count is zero. -/
theorem C1_counterexample :
    detectActiveRoute [vWristPose] [vHold] [vRoute] = some vRoute ∧
      footVotesHD [vWristPose] [vHold] "yellow" = 0 := by
  have d1 : (3 : ℚ)/10 < 9/10 := by norm_num
  constructor
  · simp [detectActiveRoute, vWristPose, vHold, vRoute, findLimbKeypoints,
      findNearestHoldInRoute, addVoteHD, sqrtLt, distSq, List.find?, d1]
  · simp [footVotesHD, vWristPose, vHold, d1]

/-- Witness for C1 on a frame where all four limbs touch the yellow hold. -/
theorem C1_active_route_eligibility_witness :
    detectActiveRouteFromValidFrames [vHold] [vRoute] [vFrame] = some vRoute ∧
      (∃ vc, (vRoute.color, vc) ∈ tallyVotes [vFrame] [vHold] ∧
        0 < vc.handVotes ∧ 0 < vc.footVotes ∧
        ∀ p ∈ tallyVotes [vFrame] [vHold],
          0 < p.2.handVotes → 0 < p.2.footVotes → p.2.total ≤ vc.total) := by
  have h : detectActiveRouteFromValidFrames [vHold] [vRoute] [vFrame] = some vRoute := by
    simp [detectActiveRouteFromValidFrames, tallyVotes, tallyFrame, frameLimbs,
      vFrame, findNearestHoldInRoute, vHold, sqrtLt, distSq, addVote, pickBest,
      vRoute, List.find?]
  exact ⟨h, C1_active_route_eligibility [vHold] [vRoute] [vFrame] vRoute h⟩

/-- C2 counterexample: a run whose keypoint never leaves the 30 px holding
distance of hold `"X"` still records two `Grab` actions for `"X"`, because the
5 px jump between frames exceeds `MOVE_THRES` and resets the limb state. -/
theorem C2_counterexample :
    ((runLimb [c2Hold] Limb.leftHand 0 (c2Init, []) (some (c2kp 0)) c2Frames).2.filter
        (fun a => a.holdId == "X" && a.type == ActionType.Grab)).length = 2 ∧
      ∀ f ∈ c2Frames, ∃ k, f.1 = some k ∧
        distSq k.x k.y c2Hold.x c2Hold.y < HOLD_DIST_THRES ^ 2 := by
  have hsc : ¬ ((1 : ℚ) < 3/10) := by norm_num
  have hv0 : ¬ (MOVE_THRES ^ 2 < distSq (0 : ℚ) 0 0 0) := by
    norm_num [MOVE_THRES, distSq]
  have hv5 : MOVE_THRES ^ 2 < distSq (5 : ℚ) 0 0 0 := by
    norm_num [MOVE_THRES, distSq]
  have hv55 : ¬ (MOVE_THRES ^ 2 < distSq (5 : ℚ) 0 5 0) := by
    norm_num [MOVE_THRES, distSq]
  have hd0 : distSq (0 : ℚ) 0 0 0 < HOLD_DIST_THRES ^ 2 := by
    norm_num [HOLD_DIST_THRES, distSq]
  have hd5 : distSq (5 : ℚ) 0 0 0 < HOLD_DIST_THRES ^ 2 := by
    norm_num [HOLD_DIST_THRES, distSq]
  constructor
  · simp [runLimb, processLimb, c2Frames, c2Init, c2kp, c2Hold, findNearestHoldR,
      Limb.isHand, hsc, hv0, hv5, hv55, hd0, hd5]
  · intro f hf
    simp only [c2Frames, List.mem_cons, List.not_mem_nil, or_false] at hf
    rcases hf with rfl | rfl | rfl <;>
      exact ⟨_, rfl, by norm_num [c2kp, c2Hold, distSq, HOLD_DIST_THRES]⟩

/-- Witness for C2 (amended): a one-frame quiet run from a state holding
`"X"` emits nothing and stays holding `"X"`. -/
theorem C2_no_duplicate_while_quiet_witness :
    (runLimb [c2Hold] Limb.leftHand 0 (c2Holding, []) (some (c2kp 0))
        [(some (c2kp 0), 1)]).2 = [] ∧
      (runLimb [c2Hold] Limb.leftHand 0 (c2Holding, []) (some (c2kp 0))
        [(some (c2kp 0), 1)]).1.state = LimbPhase.Holding ∧
      (runLimb [c2Hold] Limb.leftHand 0 (c2Holding, []) (some (c2kp 0))
        [(some (c2kp 0), 1)]).1.holdId = some "X" :=
  C2_no_duplicate_while_quiet [c2Hold] Limb.leftHand 0 c2Holding [] "X"
    (some (c2kp 0)) [(some (c2kp 0), 1)] rfl rfl
    ⟨Or.inr ⟨c2kp 0, c2kp 0,
      (c2Hold, distSq (c2kp 0).x (c2kp 0).y c2Hold.x c2Hold.y),
      rfl, rfl, by norm_num [c2kp], by norm_num [c2kp, distSq, MOVE_THRES],
      rfl, rfl, by norm_num [c2kp, c2Hold, distSq, HOLD_DIST_THRES]⟩, trivial⟩

/-- Witness for C5 on a five-hold red group already sorted by `avgY`. -/
theorem C5_route_top_start_witness :
    mkRoute "red" c5Input ∈ (groupHoldsToRoutes c5Input).routes ∧
      (∃ t s, (mkRoute "red" c5Input).topHold = some t ∧
        (mkRoute "red" c5Input).startHold = some s ∧
        t ∈ (mkRoute "red" c5Input).holds ∧ s ∈ (mkRoute "red" c5Input).holds ∧
        t.isTop = true ∧ t.id = (mkRoute "red" c5Input).color ++ "_TOP" ∧
        t.order = (mkRoute "red" c5Input).holds.length ∧
        (∀ h ∈ (mkRoute "red" c5Input).holds,
          t.y ≤ h.y ∧ h.y ≤ s.y ∧ h.order ≤ t.order) ∧
        (∀ k (hk : k < (mkRoute "red" c5Input).holds.length), k ≠ 0 →
          ((mkRoute "red" c5Input).holds.get ⟨k, hk⟩).isTop = false ∧
            ((mkRoute "red" c5Input).holds.get ⟨k, hk⟩).order =
              (mkRoute "red" c5Input).holds.length - k ∧
            ((mkRoute "red" c5Input).holds.get ⟨k, hk⟩).id =
              (mkRoute "red" c5Input).color ++ "_" ++
                toString ((mkRoute "red" c5Input).holds.length - k)) ∧
        (∀ j k (hj : j < (mkRoute "red" c5Input).holds.length)
            (hk : k < (mkRoute "red" c5Input).holds.length), j ≤ k →
          ((mkRoute "red" c5Input).holds.get ⟨j, hj⟩).y ≤
            ((mkRoute "red" c5Input).holds.get ⟨k, hk⟩).y)) := by
  have hgroups : groupByColor c5Input = [("red", c5Input)] := by
    simp [c5Input, groupByColor, groupByColorStep, rmh]
  have hmem : mkRoute "red" c5Input ∈ (groupHoldsToRoutes c5Input).routes := by
    unfold groupHoldsToRoutes
    simp only
    rw [List.mem_mergeSort, hgroups]
    simp [MIN_HOLDS_PER_ROUTE, c5Input]
  exact ⟨hmem, C5_route_top_start c5Input (mkRoute "red" c5Input) hmem⟩

/-- Witness for C6 on a one-hold red group: no red route and no red hold is
emitted. -/
theorem C6_route_minimum_size_witness :
    (∀ r ∈ (groupHoldsToRoutes c6Input).routes, r.color ≠ "red") ∧
      ∀ h ∈ (groupHoldsToRoutes c6Input).allHolds, h.color ≠ "red" := by
  have hg : ("red", [rmh 10]) ∈ groupByColor c6Input := by
    simp [c6Input, groupByColor, groupByColorStep, rmh]
  exact C6_route_minimum_size c6Input "red" [rmh 10] hg
    (by norm_num [MIN_HOLDS_PER_ROUTE])

/-- Witness for C8: a sharply bent left knee with the ankle above the knee,
the left foot holding, and no preceding action, emits a `HeelHook`. -/
theorem C8_heel_hook_condition_witness :
    ∃ a, checkHeelHook hhPose Side.left hhState [] 0 5 = [] ++ [a] ∧
        a.type = ActionType.HeelHook ∧ a.limb = Side.left.footLimb ∧
        a.holdId = hhState.holdId.getD "?" := by
  refine (C8_heel_hook_condition hhPose Side.left hhState [] 0 5
      { x := 0, y := 0, score := some 1, name := some "left_hip" }
      { x := 10, y := 0, score := some 1, name := some "left_knee" }
      { x := 0, y := -1, score := some 1, name := some "left_ankle" }
      ?_ ?_ ?_).mpr ⟨rfl, ?_, ?_, ?_⟩
  · simp [hhPose, findKp, Side.str, List.find?]
  · simp [hhPose, findKp, Side.str, List.find?]
  · simp [hhPose, findKp, Side.str, List.find?]
  · norm_num [kneeAngleBelow120, distSq]
  · norm_num
  · rfl

end GripGenius
